import Mathlib

/-!
# EmulatorKit: the `rbcv2` and `lottery` platform emulators

A shallow embedding of `src/rbcv2.c` and `src/lottery.c`.

Conventions of the embedding.

* C globals become fields of a `State` structure; every C function becomes a
  Lean function that takes the state and returns the new state (and the C
  return value, when there is one).
* `uint8_t` / `uint16_t` objects are natural numbers.  Arguments of byte type
  stand for values below 256; wherever a C operation can leave the range
  (`~x`, `x++`, `x += y`, narrowing assignments) the reduction modulo `2^w`
  is written out.
* C arrays are functions from the index to the element; a store is `upd`.
  The index used by an access is kept as an explicit expression so that
  bounds can be stated about it.
* Diagnostic output to `stderr` (the `trace` prints) is not modelled.
* Calls into external collaborators (the Z80 core, the IDE model, the RTC,
  ...) are recorded, in call order, in an observation field of the state.
  Values returned by collaborators are taken from an environment or passed
  as arguments, as are the host inputs (`check_chario`, the terminal read).
* `exit(EXIT_FAILURE)` in `main` is the result `none`: nothing after it runs.
-/

/-- Array store `f[i] = v`. -/
def upd (f : Nat → Nat) (i v : Nat) : Nat → Nat :=
  fun j => if j = i then v else f j

/-- Two-dimensional array store `f[i][j] = v`. -/
def upd2 (f : Nat → Nat → Nat) (i j v : Nat) : Nat → Nat → Nat :=
  fun a b => if a = i ∧ b = j then v else f a b

/-- The C expression `~m` narrowed to `uint8_t`. -/
def not8 (m : Nat) : Nat := 255 - m % 256

/-- A regular file as `read` sees it: its length in bytes and the byte at each
offset below the length. -/
structure RomFile where
  len : Nat
  byte : Nat → Nat

/-- The count returned by the POSIX call `read(fd, buf, count)` on a regular
file of length `len` whose file offset is `pos`: the bytes available from the
offset on, up to `count`. -/
def read_count (len pos count : Nat) : Nat := min count (len - pos)

/-! ## rbcv2 -/

namespace Rbcv2

/-- Constant `#define HIRAM 63`. -/
def HIRAM : Nat := 63

/-- Constant `#define RXDA 1`. -/
def RXDA : Nat := 1
/-- Constant `#define TEMT 2`. -/
def TEMT : Nat := 2
/-- Constant `#define MODEM 8`. -/
def MODEM : Nat := 8

/-- The `struct uart16x50`. -/
structure uart16x50 where
  ier : Nat
  iir : Nat
  fcr : Nat
  lcr : Nat
  mcr : Nat
  lsr : Nat
  msr : Nat
  scratch : Nat
  ls : Nat
  ms : Nat
  dlab : Nat
  irq : Nat
  irqline : Nat

/-- Calls made by rbcv2 to its external collaborators. -/
inductive Call where
  | Z80INT (vector : Nat)
  | putchar (c : Nat)
  | ide_reset_begin
  | ide_write16 (r : Nat) (v : Nat)
  | ide_read16 (r : Nat)
  | rtc_write (v : Nat)
  | nic_w5100_write (a : Nat) (v : Nat)
  | propio_write (a : Nat) (v : Nat)
  | rtc_read
  | nic_w5100_read (a : Nat)
  | propio_read (a : Nat)
  deriving DecidableEq

/-- Values supplied by the external collaborators: the 16-bit word returned by
`ide_read16`, as a function of the calls made so far and of the register. -/
structure Env where
  ide_read16 : List Call → Nat → Nat

/-- The globals of `rbcv2.c`.  `ide0`, `propio` are the two device pointers,
kept as "is attached" flags; `ramf_mem` is the region mapped at `ramf_addr`;
`calls` is the observation field: the external calls made so far, oldest
first. -/
structure State where
  ramrom : Nat → Nat → Nat
  rombank : Nat
  rambank : Nat
  ide0 : Bool
  propio : Bool
  timerhack : Nat
  wiznet : Nat
  trace : Nat
  pioreg : Nat → Nat
  uart : Nat → uart16x50
  ramf : Nat
  ramf_mem : Nat → Nat
  ramf_port : Nat → Nat → Nat
  ramf_count : Nat → Nat
  calls : List Call

/-- Record one external call. -/
def emit (s : State) (c : Call) : State := { s with calls := s.calls ++ [c] }

/-- The `ramrom` cell `(bank, offset)` that `mem_read(addr)` returns. -/
def mem_read_cell (s : State) (addr : Nat) : Nat × Nat :=
  if addr > 32767 then (HIRAM, addr &&& 0x7FFF)
  else if s.rombank &&& 0x80 ≠ 0 then (32 + (s.rambank &&& 0x1F), addr)
  else (s.rombank &&& 0x1F, addr)

/-- Source function `mem_read`. -/
def mem_read (s : State) (addr : Nat) : Nat :=
  s.ramrom (mem_read_cell s addr).1 (mem_read_cell s addr).2

/-- The `ramrom` cell `(bank, offset)` that `mem_write(addr, _)` assigns, or
`none` when the write falls through to the ROM branch, which stores nothing. -/
def mem_write_cell (s : State) (addr : Nat) : Option (Nat × Nat) :=
  if addr > 32767 then some (HIRAM, addr &&& 0x7FFF)
  else if s.rombank &&& 0x80 ≠ 0 then some (32 + (s.rambank &&& 0x1F), addr)
  else none

/-- Source function `mem_write`. -/
def mem_write (s : State) (addr val : Nat) : State :=
  match mem_write_cell s addr with
  | some (b, o) => { s with ramrom := upd2 s.ramrom b o val }
  | none => s

/-- Source function `pio_write`. -/
def pio_write (env : Env) (s : State) (addr val : Nat) : State :=
  let changed := s.pioreg addr ^^^ val
  let dhigh := val &&& changed
  let dlow := not8 val &&& changed
  if addr = 0 ∨ addr = 1 then { s with pioreg := upd s.pioreg addr val }
  else if addr = 2 then
    let s1 := { s with pioreg := upd s.pioreg addr val }
    if !s1.ide0 then s1
    else if val &&& 0x80 ≠ 0 then emit s1 Call.ide_reset_begin
    else
      let d := (val &&& 0x07) + (if val &&& 0x10 ≠ 0 then 2 else 0)
      if dlow &&& 0x20 ≠ 0 then
        emit s1 (Call.ide_write16 d ((((s1.pioreg 1) <<< 8) ||| s1.pioreg 0) % 65536))
      else if dhigh &&& 0x40 ≠ 0 then
        let w := env.ide_read16 s1.calls d % 65536
        let s2 := emit s1 (Call.ide_read16 d)
        let s3 := { s2 with pioreg := upd s2.pioreg 0 (w % 256) }
        { s3 with pioreg := upd s3.pioreg 1 ((w >>> 8) % 256) }
      else s1
  else if addr = 3 then { s with pioreg := upd s.pioreg addr val }
  else s

/-- Source function `pio_read`. -/
def pio_read (s : State) (addr : Nat) : Nat := s.pioreg addr

/-- Store `p` as `uart[u]`. -/
def setUart (s : State) (u : Nat) (p : uart16x50) : State :=
  { s with uart := fun j => if j = u then p else s.uart j }

/-- Source function `uart_init`. -/
def uart_init (s : State) (u : Nat) : State :=
  setUart s u { s.uart u with dlab := 0 }

/-- The tail of `uart_recalc_iir`, reached when some source is pending:
raise the line unless it is already raised. -/
def uart_waggle (s : State) (u : Nat) : State :=
  if (s.uart u).irqline ≠ 0 then s
  else emit (setUart s u { s.uart u with irqline := (s.uart u).irq }) (Call.Z80INT 0xFF)

/-- Source function `uart_recalc_iir`. -/
def uart_recalc_iir (s : State) (u : Nat) : State :=
  let p := s.uart u
  if p.irq &&& RXDA ≠ 0 then uart_waggle (setUart s u { p with iir := 0x04 }) u
  else if p.irq &&& TEMT ≠ 0 then uart_waggle (setUart s u { p with iir := 0x02 }) u
  else if p.irq &&& MODEM ≠ 0 then uart_waggle (setUart s u { p with iir := 0x00 }) u
  else setUart s u { p with iir := 0x01, irqline := 0 }

/-- Source function `uart_interrupt`. -/
def uart_interrupt (s : State) (u n : Nat) : State :=
  let p := s.uart u
  if p.irq &&& n ≠ 0 then s
  else if p.ier &&& n = 0 then s
  else uart_recalc_iir (setUart s u { p with irq := p.irq ||| n }) u

/-- Source function `uart_clear_interrupt`. -/
def uart_clear_interrupt (s : State) (u n : Nat) : State :=
  let p := s.uart u
  if p.irq &&& n = 0 then s
  else uart_recalc_iir (setUart s u { p with irq := p.irq &&& not8 n }) u

/-- Source function `uart_write`; `u` is the index of `uptr` in `uart[]`. -/
def uart_write (s : State) (u addr val : Nat) : State :=
  let p := s.uart u
  if addr = 0 then
    if p.dlab = 0 then
      let s1 := if u = 0 then emit s (Call.putchar val) else s
      uart_interrupt (uart_clear_interrupt s1 u TEMT) u TEMT
    else setUart s u { p with ls := val }
  else if addr = 1 then
    if p.dlab ≠ 0 then setUart s u { p with ms := val }
    else setUart s u { p with ier := val }
  else if addr = 2 then setUart s u { p with fcr := val &&& 0x9F }
  else if addr = 3 then setUart s u { p with lcr := val, dlab := val &&& 0x80 }
  else if addr = 4 then setUart s u { p with mcr := val &&& 0x3F }
  else if addr = 7 then setUart s u { p with scratch := val }
  else s

/-- Source function `check_chario`, given whether `select` reports descriptor
0 readable.  The set `o` is filled with descriptor 1 but `select` is called as
`select(2, &i, NULL, NULL, &tv)`, so `o` is never cleared and `FD_ISSET(1, &o)`
holds on every call: bit 1 of the result is always set.  (The `exit(1)` taken
when `select` fails is not part of the result.) -/
def check_chario (input_ready : Bool) : Nat :=
  let r0 := 0
  let r1 := if input_ready then r0 ||| 1 else r0
  r1 ||| 2

/-- Source function `next_char`, given what `read(0, &c, 1)` delivered (`none`
when it did not return 1).  The value is the byte that reaches the caller's
`uint8_t` result. -/
def next_char (k : Option Nat) : Nat :=
  match k with
  | none => 0xFF
  | some c => if c = 0x0A then 0x0D else c

/-- Source function `uart_read`, with the byte it returns; `u` is the index of
`uptr` in `uart[]`, `r` the result of `check_chario()` (bit 0: input ready,
bit 1: output ready) and `k` what the terminal read delivers; `r` is only
consulted at offset 5 and `k` only at offset 0.  The values `r` takes in the
program are those of `check_chario`, 2 and 3. -/
def uart_read (s : State) (u addr r : Nat) (k : Option Nat) : Nat × State :=
  let p := s.uart u
  if addr = 0 then
    if !s.propio ∧ u = 0 ∧ p.dlab = 0 then (next_char k, uart_clear_interrupt s u RXDA)
    else (0xFF, s)
  else if addr = 1 then (p.ier, s)
  else if addr = 2 then (p.iir, s)
  else if addr = 3 then (p.lcr, s)
  else if addr = 4 then (p.mcr, s)
  else if addr = 5 then
    if !s.propio then
      let l0 := 0
      let l1 := if r &&& 1 ≠ 0 then l0 ||| 0x01 else l0
      let l2 := if r &&& 2 ≠ 0 then l1 ||| 0x60 else l1
      (l2, setUart s u { p with lsr := l2 &&& 0xF0 })
    else (0x60, s)
  else if addr = 6 then
    (p.msr, uart_clear_interrupt (setUart s u { p with msr := p.msr &&& 0xF0 }) u MODEM)
  else if addr = 7 then (p.scratch, s)
  else (0xFF, s)

/-- Source function `uart_event`; `r` is the result of `check_chario()`, which
in the program is 2 or 3. -/
def uart_event (s : State) (u r : Nat) : State :=
  let p := s.uart u
  let old := p.lsr
  let l1 := if r &&& 1 ≠ 0 then old ||| 0x01 else old
  let l2 := if r &&& 2 ≠ 0 then l1 ||| 0x60 else l1
  let s1 := setUart s u { p with lsr := l2 }
  let dhigh := (old ^^^ l2) &&& l2
  let s2 := if dhigh &&& 1 ≠ 0 then uart_interrupt s1 u RXDA else s1
  if dhigh &&& 0x2 ≠ 0 then uart_interrupt s2 u TEMT else s2

/-- Source function `timer_pulse`. -/
def timer_pulse (s : State) : State :=
  if s.timerhack ≠ 0 then
    let p := s.uart 0
    let s1 := setUart s 0 { p with msr := (p.msr ^^^ 0x20) ||| 0x02 }
    uart_interrupt s1 0 MODEM
  else s

/-- Source function `ramaddr`: the offset into the mapped region, and the
state after the post-increment of `ramf_count[high]`. -/
def ramaddr (s : State) (high : Nat) : Nat × State :=
  let offset := (if high ≠ 0 then 4096 * 1024 else 0)
    + ((s.ramf_port high 0 &&& 0x1F) <<< 17)
    + (s.ramf_port high 1 <<< 9)
    + s.ramf_count high
  (offset % 2 ^ 32,
   { s with ramf_count := upd s.ramf_count high ((s.ramf_count high + 1) % 65536) })

/-- Source function `ramf_write`. -/
def ramf_write (s : State) (addr val : Nat) : State :=
  let high := if addr &&& 4 ≠ 0 then 1 else 0
  let a := addr &&& 3
  if a = 0 then
    let r := ramaddr s high
    { r.2 with ramf_mem := upd r.2.ramf_mem r.1 val }
  else if a = 3 then s
  else
    { s with ramf_port := upd2 s.ramf_port high (a &&& 1) val,
             ramf_count := upd s.ramf_count high 0 }

/-- Source function `ramf_read`, with the byte it returns.  The array is
declared `ramf_port[2][2]`; the element read is kept as written in the source,
`ramf_port[high][addr]` with `addr` already reduced by `addr &= 3`.  At
`addr = 2` the column lies outside the row: here that element is a cell of its
own, which no store of `ramf_write` reaches, whereas in the C object the bytes
addressed are those after the row (`ramf_port[1][0]` for `high = 0`, past the
array for `high = 1`). -/
def ramf_read (s : State) (addr : Nat) : Nat × State :=
  let high := if addr &&& 4 ≠ 0 then 1 else 0
  let a := addr &&& 3
  if a = 0 then
    let r := ramaddr s high
    (r.2.ramf_mem r.1, r.2)
  else if a = 3 then (0, s)
  else (s.ramf_port high a, s)

/-- The elements `(row, column)` of `ramf_port` that `ramf_read(addr)`
accesses: those read by `ramaddr` at offset 0, none at offset 3,
`ramf_port[high][addr]` otherwise. -/
def ramf_read_index (addr : Nat) : List (Nat × Nat) :=
  let high := if addr &&& 4 ≠ 0 then 1 else 0
  let a := addr &&& 3
  if a = 0 then [(high, 0), (high, 1)]
  else if a = 3 then []
  else [(high, a)]

/-- The elements `(row, column)` of `ramf_port` that `ramf_write(addr, _)`
accesses: those read by `ramaddr` at offset 0, none at offset 3,
`ramf_port[high][addr & 1]` otherwise. -/
def ramf_write_index (addr : Nat) : List (Nat × Nat) :=
  let high := if addr &&& 4 ≠ 0 then 1 else 0
  let a := addr &&& 3
  if a = 0 then [(high, 0), (high, 1)]
  else if a = 3 then []
  else [(high, a &&& 1)]

/-- Source function `io_read`, with the byte it returns; `r` is the result of
`check_chario()` and `k` what the terminal read delivers (both consulted only
by `uart_read`), `x` the byte returned by the external device when the port is
routed to one (`nic_w5100_read`, `rtc_read`, `propio_read`). -/
def io_read (s : State) (addr r : Nat) (k : Option Nat) (x : Nat) : Nat × State :=
  let a := addr &&& 0xFF
  if a ≥ 0x28 ∧ a ≤ 0x2C ∧ s.wiznet ≠ 0 then (x, emit s (Call.nic_w5100_read (a &&& 3)))
  else if a ≥ 0x60 ∧ a ≤ 0x67 then (pio_read s (a &&& 3), s)
  else if a ≥ 0x68 ∧ a < 0x70 then uart_read s 0 (a &&& 7) r k
  else if a ≥ 0x70 ∧ a ≤ 0x77 then (x, emit s Call.rtc_read)
  else if s.ramf ≠ 0 ∧ (a ≥ 0xA0 ∧ a ≤ 0xA7) then ramf_read s (a &&& 7)
  else if s.propio ∧ (a ≥ 0xA8 ∧ a ≤ 0xAF) then (x, emit s (Call.propio_read a))
  else if a ≥ 0xC0 ∧ a ≤ 0xDF then uart_read s (((a - 0xC0) >>> 3) + 1) (a &&& 7) r k
  else (0xFF, s)

/-- Source function `io_write`. -/
def io_write (env : Env) (s : State) (addr val : Nat) : State :=
  let a := addr &&& 0xFF
  if a ≥ 0x28 ∧ a ≤ 0x2C ∧ s.wiznet ≠ 0 then emit s (Call.nic_w5100_write (a &&& 3) val)
  else if a ≥ 0x60 ∧ a ≤ 0x67 then pio_write env s (a &&& 3) val
  else if a ≥ 0x68 ∧ a < 0x70 then uart_write s 0 (a &&& 7) val
  else if a ≥ 0x70 ∧ a ≤ 0x77 then emit s (Call.rtc_write val)
  else if a ≥ 0x78 ∧ a ≤ 0x79 then { s with rambank := val }
  else if a ≥ 0x7C ∧ a ≤ 0x7F then { s with rombank := val }
  else if s.ramf ≠ 0 ∧ a ≥ 0xA0 ∧ a ≤ 0xA7 then ramf_write s (a &&& 0x07) val
  else if s.propio ∧ a ≥ 0xA8 ∧ a ≤ 0xAF then emit s (Call.propio_write (a &&& 0x03) val)
  else if a ≥ 0xC0 ∧ a ≤ 0xDF then uart_write s (((a - 0xC0) >>> 3) + 1) (a &&& 7) val
  else if a = 0xFD then { s with trace := val }
  else s

/-- The ROM loading loop of `main`, `for (i = 0; i < 16; i++)`, with `n`
iterations left, the next being iteration `i` with the file offset at `pos`:
each iteration is `read(fd, ramrom[i], 32768)`, and a count other than 32768
ends the process with `exit(EXIT_FAILURE)`, which is the result `none`. -/
def rom_load_loop (f : RomFile) : Nat → Nat → Nat → State → Option State
  | 0, _, _, s => some s
  | n + 1, i, pos, s =>
    let got := read_count f.len pos 32768
    let s1 := { s with
      ramrom := fun b o => if b = i ∧ o < got then f.byte (pos + o) else s.ramrom b o }
    if got ≠ 32768 then none else rom_load_loop f n (i + 1) (pos + got) s1

/-- The ROM load of `main` on a ROM file that could be opened; `none` is
`exit(EXIT_FAILURE)`. -/
def main_rom_load (f : RomFile) (s : State) : Option State := rom_load_loop f 16 0 0 s

/-- Source function `main` from the ROM load up to the point where it calls
`Z80RESET` and enters the execution loop: `some s1` is the state with which the
CPU is reset, `none` means the process has exited with `EXIT_FAILURE` before
that point.  The settings taken from the command line (`timerhack`, `ramf`,
`wiznet`, `trace`) and the device pointers `ide0` and `propio`, which `main`
sets up from the command line and the host file system, are those of `s`. -/
def main_startup (f : RomFile) (s : State) : Option State :=
  match main_rom_load f s with
  | none => none
  | some s1 =>
    let s2 := if s1.ide0 then emit s1 Call.ide_reset_begin else s1
    some (uart_init (uart_init (uart_init (uart_init (uart_init s2 0) 1) 2) 3) 4)

end Rbcv2

/-! ## lottery -/

namespace Lottery

/-- Constant `#define IRQ_SIOA 1`. -/
def IRQ_SIOA : Nat := 1
/-- Constant `#define IRQ_SIOB 2`. -/
def IRQ_SIOB : Nat := 2
/-- Constant `#define INT_TX 1`. -/
def INT_TX : Nat := 1
/-- Constant `#define INT_RX 2`. -/
def INT_RX : Nat := 2
/-- Constant `#define INT_ERR 4`. -/
def INT_ERR : Nat := 4

/-- The `struct z80_sio_chan`. -/
structure z80_sio_chan where
  wr : Nat → Nat
  rr : Nat → Nat
  data : Nat → Nat
  dptr : Nat
  irq : Nat
  rxint : Nat
  txint : Nat
  intbits : Nat
  pending : Nat
  vector : Nat

/-- The globals of `lottery.c`, with `rstate` the static local of `mem_read`.
A channel pointer `chan` is its index in `sio[]`: 0 for `sio`, 1 for `sio + 1`.
Three observation fields record what the program does to its surroundings:
`z80int` the vectors passed to `Z80INT`, oldest first; `tty` the bytes written
to file descriptor 1, oldest first; `reti_events` the number of times
`reti_event` has been entered. -/
structure State where
  ramU : Nat → Nat
  ramL : Nat → Nat
  ramsel : Nat
  timerhack : Nat
  int_recalc : Nat
  live_irq : Nat
  rstate : Nat
  sio : Nat → z80_sio_chan
  piireg : Nat → Nat
  z80int : List Nat
  tty : List Nat
  reti_events : Nat

/-- Index into `ramL` used for a lower-window address. -/
def ramL_index (s : State) (addr : Nat) : Nat := addr + 0x8000 * s.ramsel

/-- Index into `ramU` used for an upper-window address. -/
def ramU_index (addr : Nat) : Nat := addr - 0x8000

/-- Source function `do_mem_read` (the `quiet` argument only affects tracing). -/
def do_mem_read (s : State) (addr : Nat) : Nat :=
  if addr < 0x8000 then s.ramL (ramL_index s addr)
  else s.ramU (ramU_index addr)

/-- Source function `mem_write`. -/
def mem_write (s : State) (addr val : Nat) : State :=
  if addr < 0x8000 then { s with ramL := upd s.ramL (ramL_index s addr) val }
  else { s with ramU := upd s.ramU (ramU_index addr) val }

/-- Source function `recalc_interrupts`. -/
def recalc_interrupts (s : State) : State := { s with int_recalc := 1 }

/-- Store `c` as `sio[ch]`. -/
def setChan (s : State) (ch : Nat) (c : z80_sio_chan) : State :=
  { s with sio := fun j => if j = ch then c else s.sio j }

/-- Source function `sio2_clear_int`. -/
def sio2_clear_int (s : State) (ch m : Nat) : State :=
  let c := s.sio ch
  let s1 := setChan s ch
    { c with intbits := c.intbits &&& not8 m, pending := c.pending &&& not8 m }
  let s2 :=
    if (s1.sio 0).intbits ||| (s1.sio 1).intbits = 0 then
      let s1a := setChan s1 0 { s1.sio 0 with rr := upd (s1.sio 0).rr 1 ((s1.sio 0).rr 1 &&& 0xFD) }
      setChan s1a ch { s1a.sio ch with irq := 0 }
    else s1
  recalc_interrupts s2

/-- The vector computed inside `sio2_raise_int` for channel `ch` whose
interrupt bits are `intbits`, given channel B's WR1. -/
def sio2_vector (wr1B ch intbits : Nat) : Nat :=
  if wr1B &&& 0x04 ≠ 0 then
    let v0 := 0 &&& 0xF1
    let v1 := if ch = 0 then v0 ||| (1 <<< 3) else v0
    if intbits &&& INT_RX ≠ 0 then v1 ||| 4
    else if intbits &&& INT_ERR ≠ 0 then v1 ||| 2
    else v1
  else 0

/-- Source function `sio2_raise_int`. -/
def sio2_raise_int (s : State) (ch m : Nat) : State :=
  let c := s.sio ch
  let new := (c.intbits ^^^ m) &&& m
  let s1 := setChan s ch { c with intbits := c.intbits ||| m }
  if new ≠ 0 then
    if (s1.sio 0).irq = 0 then
      let s2 := setChan s1 ch { s1.sio ch with irq := 1 }
      let s3 := setChan s2 0 { s2.sio 0 with rr := upd (s2.sio 0).rr 1 ((s2.sio 0).rr 1 ||| 0x02) }
      let vector := sio2_vector ((s3.sio 1).wr 1) ch (s3.sio ch).intbits
      recalc_interrupts (setChan s3 ch { s3.sio ch with vector := vector })
    else s1
  else s1

/-- Source function `sio2_reti`. -/
def sio2_reti (s : State) (_ch : Nat) : State :=
  recalc_interrupts (setChan s 0 { s.sio 0 with irq := 0 })

/-- Source function `sio2_check_im2`, with its `int` result. -/
def sio2_check_im2 (s : State) (ch : Nat) : Nat × State :=
  let c := s.sio ch
  if c.irq ≠ 0 then
    let v :=
      if (s.sio 1).wr 1 &&& 0x04 ≠ 0 then (c.vector + ((s.sio 1).wr 2 &&& 0xF1)) % 256
      else (c.vector + (s.sio 1).wr 2) % 256
    let s1 := setChan s ch { c with vector := v }
    let s2 := { s1 with live_irq := if ch = 0 then IRQ_SIOA else IRQ_SIOB }
    (1, { s2 with z80int := s2.z80int ++ [v] })
  else (0, s)

/-- Index of the slot of `data[]` that `sio2_queue` assigns on a channel whose
occupancy counter is `dptr`: `data[2]` in the overrun arm, `data[dptr]` in the
other. -/
def sio2_queue_slot (dptr : Nat) : Nat := if dptr = 2 then 2 else dptr

/-- Source function `sio2_queue`. -/
def sio2_queue (s : State) (ch c : Nat) : State :=
  let chan := s.sio ch
  if chan.wr 3 &&& 1 = 0 then s
  else if chan.dptr = 2 then
    let s1 := setChan s ch
      { chan with data := upd chan.data 2 c,
                  rr := upd chan.rr 1 (chan.rr 1 ||| 0x20) }
    sio2_raise_int s1 ch INT_ERR
  else
    let s1 := setChan s ch
      { chan with data := upd chan.data chan.dptr c,
                  dptr := (chan.dptr + 1) % 256,
                  rr := upd chan.rr 0 (chan.rr 0 ||| 1) }
    let mode := (s1.sio ch).wr 1 &&& 0x18
    if mode = 0x00 then s1
    else if mode = 0x08 then
      if (s1.sio ch).dptr = 1 then sio2_raise_int s1 ch INT_RX else s1
    else if mode = 0x10 ∨ mode = 0x18 then sio2_raise_int s1 ch INT_RX
    else s1

/-- Source function `next_char`, given what `read(0, &c, 1)` delivered (`none`
when it did not return 1).  The value is the byte as the `uint8_t` parameter
of the caller receives it. -/
def next_char (k : Option Nat) : Nat :=
  match k with
  | none => 0xFF
  | some c => if c = 0x0A then 0x0D else c

/-- The transmit-side tail shared by both arms of `sio2_channel_timer`. -/
def sio2_tx_ready (s : State) (ch : Nat) : State :=
  let chan := s.sio ch
  if chan.rr 0 &&& 0x04 = 0 then
    let s1 := setChan s ch { chan with rr := upd chan.rr 0 (chan.rr 0 ||| 0x04) }
    if (s1.sio ch).wr 1 &&& 0x02 ≠ 0 then sio2_raise_int s1 ch INT_TX else s1
  else s

/-- Source function `sio2_channel_timer`; `r` is the result of `check_chario()`
and `k` what the terminal read delivers, both only consulted for `ab = 0`. -/
def sio2_channel_timer (s : State) (ch ab r : Nat) (k : Option Nat) : State :=
  if ab = 0 then
    let s1 := if r &&& 1 ≠ 0 then sio2_queue s ch (next_char k) else s
    if r &&& 2 ≠ 0 then sio2_tx_ready s1 ch else s1
  else sio2_tx_ready s ch

/-- Source function `sio2_timer`. -/
def sio2_timer (s : State) (r : Nat) (k : Option Nat) : State :=
  sio2_channel_timer (sio2_channel_timer s 0 0 r k) 1 1 r k

/-- Source function `sio2_channel_reset`. -/
def sio2_channel_reset (s : State) (ch : Nat) : State :=
  let chan := s.sio ch
  let s1 := setChan s ch
    { chan with rr := upd (upd (upd chan.rr 0 0x2C) 1 0x01) 2 0 }
  sio2_clear_int s1 ch (INT_RX ||| INT_TX ||| INT_ERR)

/-- Source function `sio_reset`. -/
def sio_reset (s : State) : State :=
  sio2_channel_reset (sio2_channel_reset s 0) 1

/-- Source function `sio2_read`, with the byte it returns. -/
def sio2_read (s : State) (addr : Nat) : Nat × State :=
  let ch := if addr &&& 2 ≠ 0 then 1 else 0
  let chan := s.sio ch
  if addr &&& 1 ≠ 0 then
    let r := chan.wr 0 &&& 7
    let s1 := setChan s ch
      { chan with wr := upd chan.wr 0 (chan.wr 0 &&& 0xF8),
                  rr := upd chan.rr 0 (chan.rr 0 &&& 0xFD) }
    let s2 :=
      if ch = 0 ∧ ((s1.sio 0).intbits ||| (s1.sio 1).intbits) ≠ 0 then
        setChan s1 ch { s1.sio ch with rr := upd (s1.sio ch).rr 0 ((s1.sio ch).rr 0 ||| 2) }
      else s1
    if r = 0 ∨ r = 1 then ((s2.sio ch).rr r, s2)
    else if r = 2 ∧ ch ≠ 0 then ((s2.sio ch).rr 2, s2)
    else (0xFF, s2)
  else
    let c := chan.data 0
    let dptr1 := if chan.dptr ≠ 0 then chan.dptr - 1 else chan.dptr
    let rr0 := if dptr1 = 0 then chan.rr 0 &&& 0xFE else chan.rr 0
    let s1 := setChan s ch
      { chan with data := upd (upd chan.data 0 (chan.data 1)) 1 (chan.data 2),
                  dptr := dptr1,
                  rr := upd chan.rr 0 rr0 }
    let s2 := sio2_clear_int s1 ch INT_RX
    let c2 := s2.sio ch
    let s3 := setChan s2 ch
      { c2 with rr := upd (upd c2.rr 0 (c2.rr 0 &&& 0x3F)) 1 (c2.rr 1 &&& 0x3F) }
    let s4 :=
      if (s3.sio ch).dptr ≠ 0 ∧ (s3.sio ch).wr 1 &&& 0x10 ≠ 0 then sio2_raise_int s3 ch INT_RX
      else s3
    (c, s4)

/-- The WR0 command dispatch of `sio2_write` (`switch (val & 070)`). -/
def sio2_command (s : State) (ch val : Nat) : State :=
  let cmd := val &&& 0o70
  if cmd = 0o20 then
    let s1 := sio2_clear_int s ch INT_ERR
    setChan s1 ch { s1.sio ch with rr := upd (s1.sio ch).rr 1 ((s1.sio ch).rr 1 &&& 0xCF) }
  else if cmd = 0o30 then sio2_channel_reset s ch
  else if cmd = 0o40 then setChan s ch { s.sio ch with rxint := 1 }
  else if cmd = 0o50 then setChan s ch { s.sio ch with txint := 0 }
  else if cmd = 0o60 then
    setChan s ch { s.sio ch with rr := upd (s.sio ch).rr 1 ((s.sio ch).rr 1 &&& 0x8F) }
  else if cmd = 0o70 then
    if ch = 0 then
      let a := s.sio 0
      let s1 := setChan s 0 { a with irq := 0, rr := upd a.rr 1 (a.rr 1 &&& 0xFD) }
      let s2 := sio2_clear_int s1 0 (INT_RX ||| INT_TX ||| INT_ERR)
      sio2_clear_int s2 1 (INT_RX ||| INT_TX ||| INT_ERR)
    else s
  else s

/-- Source function `sio2_write`. -/
def sio2_write (s : State) (addr val : Nat) : State :=
  let ch := if addr &&& 2 ≠ 0 then 1 else 0
  let chan := s.sio ch
  if addr &&& 1 ≠ 0 then
    let r := chan.wr 0 &&& 7
    if r = 0 then
      sio2_command (setChan s ch { chan with wr := upd chan.wr 0 val }) ch val
    else
      let wr1 := upd chan.wr r val
      let rr1 := if ch ≠ 0 ∧ r = 2 then upd chan.rr 2 val else chan.rr
      setChan s ch { chan with wr := upd wr1 0 (wr1 0 &&& 0xF8), rr := rr1 }
  else
    let s1 := setChan s ch
      { chan with rr := upd chan.rr 0 (chan.rr 0 &&& 0xFB), txint := 1 }
    let s2 := sio2_clear_int s1 ch INT_TX
    { s2 with tty := s2.tty ++ [val] }

/-- Source function `pii_reset`. -/
def pii_reset (s : State) : State :=
  { s with piireg := upd (upd (upd (upd s.piireg 0 0) 1 0) 2 0) 3 0, ramsel := 0 }

/-- Source function `pii_write`. -/
def pii_write (s : State) (addr val : Nat) : State :=
  if addr = 0 ∨ addr = 1 then { s with piireg := upd s.piireg addr val }
  else if addr = 2 then
    { s with piireg := upd s.piireg addr val, ramsel := (val &&& 0xF0) >>> 4 }
  else if addr = 3 then
    if val &&& 0x80 ≠ 0 then
      let p := upd s.piireg addr val
      { s with piireg := upd (upd (upd p 2 0) 1 0) 0 0, ramsel := 0 }
    else s
  else s

/-- Source function `pii_read`. -/
def pii_read (s : State) (addr : Nat) : Nat := s.piireg addr

/-- Source function `timer_pulse`. -/
def timer_pulse (s : State) : State :=
  if s.timerhack ≠ 0 then
    let a := s.sio 0
    let s1 := setChan s 0 { a with rr := upd a.rr 0 (a.rr 0 ^^^ 0x08) }
    if (s1.sio 0).wr 1 &&& 1 ≠ 0 then sio2_raise_int s1 0 INT_ERR else s1
  else s

/-- Source function `io_read`, with the byte it returns. -/
def io_read (s : State) (addr : Nat) : Nat × State :=
  let a := addr &&& 0xFF
  if a ≥ 0x60 ∧ a ≤ 0x63 then sio2_read s (a &&& 3)
  else if a ≥ 0x14 ∧ a ≤ 0x17 then (pii_read s (a &&& 3), s)
  else (0xFF, s)

/-- Source function `io_write`. -/
def io_write (s : State) (addr val : Nat) : State :=
  let a := addr &&& 0xFF
  if a ≥ 0x60 ∧ a ≤ 0x63 then sio2_write s (a &&& 3) val
  else if a ≥ 0x14 ∧ a ≤ 0x17 then pii_write s (a &&& 3) val
  else s

/-- Source function `poll_irq_event`. -/
def poll_irq_event (s : State) : State := (sio2_check_im2 s 0).2

/-- Source function `reti_event`. -/
def reti_event (s : State) : State :=
  let s0 := { s with reti_events := s.reti_events + 1 }
  let s1 := sio2_reti s0 0
  poll_irq_event { s1 with live_irq := 0 }

/-- Source function `mem_read`, with the byte it returns; `M1` is
`cpu_z80.M1`, the flag the Z80 core holds while the access is an opcode
fetch. -/
def mem_read (s : State) (M1 : Bool) (addr : Nat) : Nat × State :=
  let r := do_mem_read s addr
  if M1 ∧ (r = 0xDD ∨ r = 0xFD ∨ r = 0xCB) then (r, { s with rstate := 2 })
  else if M1 ∧ r = 0xED ∧ s.rstate = 0 then (r, { s with rstate := 1 })
  else
    let s1 := if r = 0x4D ∧ s.rstate = 1 then reti_event s else s
    (r, { s1 with rstate := 0 })

/-- The ROM load of `main` on a ROM file that could be opened:
`l = read(fd, ramL, 0x8000 * 8)`, and a count other than `0x8000 * 8` ends the
process with `exit(EXIT_FAILURE)`, which is the result `none`. -/
def main_rom_load (f : RomFile) (s : State) : Option State :=
  let l := read_count f.len 0 (0x8000 * 8)
  let s1 := { s with ramL := fun o => if o < l then f.byte o else s.ramL o }
  if l ≠ 0x8000 * 8 then none else some s1

/-- Source function `main` from the ROM load up to the point where it calls
`Z80RESET` and enters the execution loop: `some s1` is the state with which the
CPU is reset, `none` means the process has exited with `EXIT_FAILURE` before
that point.  The settings taken from the command line are those of `s`. -/
def main_startup (f : RomFile) (s : State) : Option State :=
  match main_rom_load f s with
  | none => none
  | some s1 => some (pii_reset (sio_reset s1))

end Lottery

/-! ## Concrete states -/

/-- The `uart16x50` with every field zero (static storage). -/
def Rbcv2.uart_zero : Rbcv2.uart16x50 :=
  { ier := 0, iir := 0, fcr := 0, lcr := 0, mcr := 0, lsr := 0, msr := 0,
    scratch := 0, ls := 0, ms := 0, dlab := 0, irq := 0, irqline := 0 }

/-- The rbcv2 globals as C's static initialisation leaves them: everything
zero, no device attached, no call made. -/
def Rbcv2.zero : Rbcv2.State :=
  { ramrom := fun _ _ => 0, rombank := 0, rambank := 0, ide0 := false,
    propio := false, timerhack := 0, wiznet := 0, trace := 0,
    pioreg := fun _ => 0, uart := fun _ => Rbcv2.uart_zero, ramf := 0,
    ramf_mem := fun _ => 0, ramf_port := fun _ _ => 0, ramf_count := fun _ => 0,
    calls := [] }

/-- An environment whose IDE device answers every read with zero. -/
def Rbcv2.env_zero : Rbcv2.Env := { ide_read16 := fun _ _ => 0 }

/-- The `z80_sio_chan` with every field zero (static storage). -/
def Lottery.chan_zero : Lottery.z80_sio_chan :=
  { wr := fun _ => 0, rr := fun _ => 0, data := fun _ => 0, dptr := 0, irq := 0,
    rxint := 0, txint := 0, intbits := 0, pending := 0, vector := 0 }

/-- The lottery globals as C's static initialisation leaves them. -/
def Lottery.zero : Lottery.State :=
  { ramU := fun _ => 0, ramL := fun _ => 0, ramsel := 0, timerhack := 0,
    int_recalc := 0, live_irq := 0, rstate := 0, sio := fun _ => Lottery.chan_zero,
    piireg := fun _ => 0, z80int := [], tty := [], reti_events := 0 }

/-- The lottery state `main` reaches before the first instruction, apart from
the ROM image: `sio_reset(); pii_reset();` on zeroed statics. -/
def Lottery.startup : Lottery.State := Lottery.pii_reset (Lottery.sio_reset Lottery.zero)

/-! ## Scenario drivers and sample machines -/

/-- The machine `s` with the detector state of `mem_read` set to `n`. -/
def Lottery.set_rstate (s : Lottery.State) (n : Nat) : Lottery.State :=
  { s with rstate := n }

/-- A run of `mem_read` calls, each given as the M1 flag and the address;
the result is the state after the last one. -/
def Lottery.mem_reads (s : Lottery.State) : List (Bool × Nat) → Lottery.State
  | [] => s
  | x :: xs => Lottery.mem_reads (Lottery.mem_read s x.1 x.2).2 xs

/-- Upper RAM holding the three bytes `b0 b1 b2` at addresses `0x8000`,
`0x8001`, `0x8002` and zero elsewhere. -/
def Lottery.ram3 (b0 b1 b2 : Nat) : Nat → Nat :=
  fun i => if i = 0 then b0 else if i = 1 then b1 else if i = 2 then b2 else 0

/-- The zeroed machine with `DD ED 4D` at `0x8000`. -/
def Lottery.dd_ed_4d : Lottery.State :=
  { Lottery.zero with ramU := Lottery.ram3 0xDD 0xED 0x4D }

/-- The zeroed machine with `ED 4D` at `0x8000`. -/
def Lottery.ed_4d : Lottery.State :=
  { Lottery.zero with ramU := Lottery.ram3 0xED 0x4D 0 }

/-- One receive-side operation on the SIO: `queue b c` is `sio2_queue` on
channel A (`b = false`) or B (`b = true`) with the byte `c`; `read b` is a read
of that channel's data port (`sio2_read(0)` or `sio2_read(2)`). -/
inductive Lottery.RxOp where
  | queue (b : Bool) (c : Nat)
  | read (b : Bool)

/-- Index in `sio[]` of the channel a receive-side operation names. -/
def Lottery.chan_index (b : Bool) : Nat := if b then 1 else 0

/-- Carry out one receive-side operation. -/
def Lottery.rx_step (s : Lottery.State) : Lottery.RxOp → Lottery.State
  | Lottery.RxOp.queue b c => Lottery.sio2_queue s (Lottery.chan_index b) c
  | Lottery.RxOp.read b => (Lottery.sio2_read s (if b then 2 else 0)).2

/-- Carry out a sequence of receive-side operations, first to last. -/
def Lottery.rx_run (s : Lottery.State) (ops : List Lottery.RxOp) : Lottery.State :=
  ops.foldl Lottery.rx_step s

/-- The machine after startup on which firmware has enabled channel A's
receiver: a control write of `3` selects WR3, the next control write stores
`0x01` in it. -/
def Lottery.rx_enabled : Lottery.State :=
  Lottery.sio2_write (Lottery.sio2_write Lottery.startup 1 3) 1 0x01

/-- The machine after startup on which firmware has programmed the SIO through
its control ports: channel B WR1 = `0x04` (status affects vector), channel B
WR2 = `0xE0` (vector base), channel A WR1 = `0x18` (interrupt on every
character), channel A WR3 = `0x01` (receiver enabled). -/
def Lottery.rx_irq_ready : Lottery.State :=
  List.foldl (fun s w => Lottery.sio2_write s w.1 w.2) Lottery.startup
    [(3, 1), (3, 0x04), (3, 2), (3, 0xE0), (1, 1), (1, 0x18), (1, 3), (1, 0x01)]

/-- Whether a call is an `ide_write16`. -/
def Rbcv2.is_write16 : Rbcv2.Call → Bool
  | Rbcv2.Call.ide_write16 _ _ => true
  | _ => false

/-- Whether a call is an `ide_read16`. -/
def Rbcv2.is_read16 : Rbcv2.Call → Bool
  | Rbcv2.Call.ide_read16 _ => true
  | _ => false

/-- Number of `ide_write16` calls in a call log. -/
def Rbcv2.writes16 (cs : List Rbcv2.Call) : Nat := cs.countP Rbcv2.is_write16

/-- Number of `ide_read16` calls in a call log. -/
def Rbcv2.reads16 (cs : List Rbcv2.Call) : Nat := cs.countP Rbcv2.is_read16

/-- Number of device register transfers (`ide_read16` and `ide_write16`) in a
call log. -/
def Rbcv2.transfers (cs : List Rbcv2.Call) : Nat := Rbcv2.reads16 cs + Rbcv2.writes16 cs

/-- The state after `n` consecutive `pio_write(2, v)` calls with the same `v`. -/
def Rbcv2.pio_ctrl_writes (env : Rbcv2.Env) (s : Rbcv2.State) (v : Nat) : Nat → Rbcv2.State
  | 0 => s
  | n + 1 => Rbcv2.pio_ctrl_writes env (Rbcv2.pio_write env s 2 v) v n

/-- The selector `pio_write` passes to the device for the control value `v`:
address bits 0-2, plus 2 when bit 4 is set. -/
def Rbcv2.pio_selector (v : Nat) : Nat := (v &&& 0x07) + (if v &&& 0x10 ≠ 0 then 2 else 0)

/-- The zeroed rbcv2 machine with an IDE device attached. -/
def Rbcv2.ide_attached : Rbcv2.State := { Rbcv2.zero with ide0 := true }

/-- An IDE device that answers every `ide_read16` with the word `0xBEEF`. -/
def Rbcv2.env_beef : Rbcv2.Env := { ide_read16 := fun _ _ => 0xBEEF }

/-- The UART part of rbcv2's startup: `main` calls `uart_init` on `uart[0]` to
`uart[4]`, all zero-initialised statics. -/
def Rbcv2.startup : Rbcv2.State :=
  Rbcv2.uart_init (Rbcv2.uart_init (Rbcv2.uart_init (Rbcv2.uart_init
    (Rbcv2.uart_init Rbcv2.zero 0) 1) 2) 3) 4

/-- One operation on lottery's SIO and interrupt arbiter: the calls
`sio2_read(addr)`, `sio2_write(addr, val)`, `sio2_queue` on channel A or B,
`sio2_timer()` with the host inputs it samples, `timer_pulse()`,
`poll_irq_event()` and `reti_event()`. -/
inductive Lottery.SioOp where
  | read (addr : Nat)
  | write (addr : Nat) (val : Nat)
  | queue (b : Bool) (c : Nat)
  | timer (r : Nat) (k : Option Nat)
  | pulse
  | poll
  | reti

/-- Carry out one SIO operation. -/
def Lottery.sio_step (s : Lottery.State) : Lottery.SioOp → Lottery.State
  | Lottery.SioOp.read addr => (Lottery.sio2_read s addr).2
  | Lottery.SioOp.write addr val => Lottery.sio2_write s addr val
  | Lottery.SioOp.queue b c => Lottery.sio2_queue s (Lottery.chan_index b) c
  | Lottery.SioOp.timer r k => Lottery.sio2_timer s r k
  | Lottery.SioOp.pulse => Lottery.timer_pulse s
  | Lottery.SioOp.poll => Lottery.poll_irq_event s
  | Lottery.SioOp.reti => Lottery.reti_event s

/-- Carry out a sequence of SIO operations, first to last. -/
def Lottery.sio_run (s : Lottery.State) (ops : List Lottery.SioOp) : Lottery.State :=
  ops.foldl Lottery.sio_step s

/-- A run in which firmware enables channel B's receiver (WR3 = 1) with an
interrupt on every character (WR1 = `0x18`), a byte arrives on channel B and
the arbiter polls. -/
def Lottery.chanB_rx_ops : List Lottery.SioOp :=
  [Lottery.SioOp.write 3 3, Lottery.SioOp.write 3 1, Lottery.SioOp.write 3 1,
   Lottery.SioOp.write 3 0x18, Lottery.SioOp.queue true 0x41, Lottery.SioOp.poll]

/-- The machine with an IDE device attached after firmware has loaded the
word `0x1234` into the two shadow data registers. -/
def Rbcv2.ide_data_loaded : Rbcv2.State :=
  Rbcv2.pio_write Rbcv2.env_zero (Rbcv2.pio_write Rbcv2.env_zero Rbcv2.ide_attached 0 0x34) 1 0x12

/-- The fields of a `uart16x50` other than the modem-status register and the
pending-interrupt state (`irq`, `iir`, `irqline`). -/
def Rbcv2.uart_regs (p : Rbcv2.uart16x50) : List Nat :=
  [p.ier, p.fcr, p.lcr, p.mcr, p.lsr, p.scratch, p.ls, p.ms, p.dlab]

/-- The machine on which `uart_event` has seen the host ready for output on
`uart[0]`: its stored LSR is `0x60`. -/
def Rbcv2.tx_idle : Rbcv2.State := Rbcv2.uart_event Rbcv2.startup 0 2

/-- The machine after startup on which firmware has enabled the receive and
transmit interrupt sources of `uart[0]` (IER = `0x03`). -/
def Rbcv2.tx_irq_enabled : Rbcv2.State := Rbcv2.uart_write Rbcv2.startup 0 1 0x03

/-- The machine with channel A's receiver enabled (WR3 = 1) and one byte,
`0x41`, waiting in its receive queue. -/
def Lottery.rx_one_queued : Lottery.State := Lottery.sio2_queue Lottery.rx_enabled 0 0x41

/-- The control port of a channel as `sio2_write` and `sio2_read` decode it:
1 for channel A, 3 for channel B. -/
def Lottery.ctrl_port (b : Bool) : Nat := if b then 3 else 1

/-- A ROM file of `n` bytes, every byte `0xC3`. -/
def rom_of_len (n : Nat) : RomFile := { len := n, byte := fun _ => 0xC3 }

/-- The zeroed rbcv2 machine with the RAM-floppy device enabled (option `-R`). -/
def Rbcv2.ramf_on : Rbcv2.State := { Rbcv2.zero with ramf := 1 }

/-- The zeroed rbcv2 machine after firmware has selected RAM bank 3 through
port `0x78`. -/
def Rbcv2.bank3 : Rbcv2.State := Rbcv2.io_write Rbcv2.env_zero Rbcv2.zero 0x78 3

/-- One operation on rbcv2's UARTs: `uart_read` and `uart_write` on `uart[u]`
with the host inputs the read samples, the `uart_event` tick on `uart[u]` with
the host readiness it samples, and `timer_pulse`. -/
inductive Rbcv2.UartOp where
  | read (u : Nat) (addr : Nat) (r : Nat) (k : Option Nat)
  | write (u : Nat) (addr : Nat) (val : Nat)
  | event (u : Nat) (r : Nat)
  | pulse

/-- Carry out one UART operation. -/
def Rbcv2.uart_step (s : Rbcv2.State) : Rbcv2.UartOp → Rbcv2.State
  | Rbcv2.UartOp.read u addr r k => (Rbcv2.uart_read s u addr r k).2
  | Rbcv2.UartOp.write u addr val => Rbcv2.uart_write s u addr val
  | Rbcv2.UartOp.event u r => Rbcv2.uart_event s u r
  | Rbcv2.UartOp.pulse => Rbcv2.timer_pulse s

/-- Carry out a sequence of UART operations, first to last. -/
def Rbcv2.uart_run (s : Rbcv2.State) (ops : List Rbcv2.UartOp) : Rbcv2.State :=
  ops.foldl Rbcv2.uart_step s

/-- The interrupt line of a UART agrees with its pending mask: `irqline` is
non-zero exactly when `irq` is, and `irq` holds no bit other than RXDA, TEMT
and MODEM. -/
def Rbcv2.line_ok (p : Rbcv2.uart16x50) : Prop :=
  (p.irqline ≠ 0 ↔ p.irq ≠ 0) ∧ p.irq &&& 0x0B = p.irq

/-- The startup state of rbcv2 run with the timer option (`-t`). -/
def Rbcv2.startup_timer : Rbcv2.State := { Rbcv2.startup with timerhack := 1 }

/-- A run in which firmware enables all three interrupt sources of `uart[0]`,
the timer pulses, input becomes ready and firmware reads the modem status. -/
def Rbcv2.irq_ops : List Rbcv2.UartOp :=
  [Rbcv2.UartOp.write 0 1 0x0B, Rbcv2.UartOp.pulse, Rbcv2.UartOp.event 0 3,
   Rbcv2.UartOp.read 0 6 2 none]

/-! ## Arithmetic of the bit operations -/

theorem upd_same (f : Nat → Nat) (i v : Nat) : upd f i v i = v := by
  simp [upd]

theorem upd_other (f : Nat → Nat) (i v j : Nat) (h : j ≠ i) : upd f i v j = f j := by
  simp [upd, h]

theorem and_7FFF_of_upper (a : Nat) (h1 : 0x8000 ≤ a) (h2 : a < 0x10000) :
    a &&& 0x7FFF = a - 0x8000 := by
  have h := Nat.and_pow_two_sub_one_eq_mod a 15
  have h' : a &&& 0x7FFF = a % 2 ^ 15 := h
  rw [h']
  omega

theorem and_7FFF_lt (a : Nat) : a &&& 0x7FFF < 32768 := by
  have h : a &&& 0x7FFF ≤ 0x7FFF := Nat.and_le_right
  omega

theorem and_1F_le (a : Nat) : a &&& 0x1F ≤ 31 := Nat.and_le_right

theorem and_1F_idem (a : Nat) : (a &&& 0x1F) &&& 0x1F = a &&& 0x1F := by
  rw [Nat.and_assoc]
  rfl

theorem nibble_hi_lt (v : Nat) : (v &&& 0xF0) >>> 4 < 16 := by
  have h : v &&& 0xF0 ≤ 0xF0 := Nat.and_le_right
  rw [Nat.shiftRight_eq_div_pow]
  omega

theorem or_and_self_ne_zero (x m : Nat) (hm : m ≠ 0) : (x ||| m) &&& m ≠ 0 := by
  have h : (x ||| m) &&& m = m := by
    apply Nat.eq_of_testBit_eq
    intro i
    simp only [Nat.testBit_and, Nat.testBit_or]
    cases x.testBit i <;> cases m.testBit i <;> rfl
  rw [h]
  exact hm

theorem and_1F_and_80 (x : Nat) : (x &&& 0x1F) &&& 0x80 = 0 := by
  rw [Nat.and_assoc]
  exact Nat.and_zero x

/-! ## Memory: the address space / bank controller -/

theorem Lottery.mem_read_fst (l : Lottery.State) (M1 : Bool) (a : Nat) :
    (Lottery.mem_read l M1 a).1 = Lottery.do_mem_read l a := by
  unfold Lottery.mem_read
  simp only []
  split_ifs <;> rfl

/-- C1: for every address `a` in the upper window (`0x8000 ≤ a < 0x10000`),
rbcv2's `mem_read` returns `ramrom[63][a - 0x8000]` and `mem_write` stores its
value into exactly that cell; lottery's `mem_read` returns `ramU[a - 0x8000]`
and `mem_write` stores into exactly that cell; replacing the bank-select state
(`rombank`, `rambank`; `ramsel`) by any other values changes neither the value
read nor the storage after the write. -/
theorem upper_window_fixed_common_bank
    (s : Rbcv2.State) (l : Lottery.State) (a v rb mb rs : Nat) (M1 : Bool)
    (h1 : 0x8000 ≤ a) (h2 : a < 0x10000) :
    (Rbcv2.mem_read s a = s.ramrom 63 (a - 0x8000)
      ∧ Rbcv2.mem_write s a v = { s with ramrom := upd2 s.ramrom 63 (a - 0x8000) v }
      ∧ Rbcv2.mem_read { s with rombank := rb, rambank := mb } a = Rbcv2.mem_read s a
      ∧ (Rbcv2.mem_write { s with rombank := rb, rambank := mb } a v).ramrom
          = (Rbcv2.mem_write s a v).ramrom)
    ∧ ((Lottery.mem_read l M1 a).1 = l.ramU (a - 0x8000)
      ∧ Lottery.mem_write l a v = { l with ramU := upd l.ramU (a - 0x8000) v }
      ∧ (Lottery.mem_read { l with ramsel := rs } M1 a).1 = (Lottery.mem_read l M1 a).1
      ∧ (Lottery.mem_write { l with ramsel := rs } a v).ramU = (Lottery.mem_write l a v).ramU
      ∧ (Lottery.mem_write { l with ramsel := rs } a v).ramL
          = (Lottery.mem_write l a v).ramL) := by
  have hm := and_7FFF_of_upper a h1 h2
  have hgt : a > 32767 := by omega
  have hnl : ¬ a < 0x8000 := by omega
  refine ⟨⟨?_, ?_, ?_, ?_⟩, ?_, ?_, ?_, ?_, ?_⟩
  · simp [Rbcv2.mem_read, Rbcv2.mem_read_cell, hgt, hm, Rbcv2.HIRAM]
  · simp [Rbcv2.mem_write, Rbcv2.mem_write_cell, hgt, hm, Rbcv2.HIRAM]
  · simp [Rbcv2.mem_read, Rbcv2.mem_read_cell, hgt]
  · simp [Rbcv2.mem_write, Rbcv2.mem_write_cell, hgt]
  · rw [Lottery.mem_read_fst]
    simp [Lottery.do_mem_read, hnl, Lottery.ramU_index]
  · simp [Lottery.mem_write, hnl, Lottery.ramU_index]
  · rw [Lottery.mem_read_fst, Lottery.mem_read_fst]
    simp [Lottery.do_mem_read, hnl]
  · simp [Lottery.mem_write, hnl]
  · simp [Lottery.mem_write, hnl]

/-- C1 at a concrete input: with ROM bank `0x25` and RAM bank `7` selected,
rbcv2 reads address `0x9000` from `ramrom[63][0x1000]`. -/
theorem upper_window_fixed_common_bank_witness :
    Rbcv2.mem_read { Rbcv2.zero with rombank := 0x25, rambank := 7 } 0x9000
      = Rbcv2.zero.ramrom 63 0x1000 :=
  (upper_window_fixed_common_bank { Rbcv2.zero with rombank := 0x25, rambank := 7 }
    Lottery.zero 0x9000 0xAB 0 0 0 true (by decide) (by decide)).1.1

/-- C2: after any value `v` is written to rbcv2's RAM bank register through
port `0x78` or to its ROM bank register through port `0x7C` (whatever the other
register holds), for every 16-bit address the cell used by `mem_read` and by
`mem_write` has bank index below 64 and offset below 32768; after any value is
written to lottery's PPI port C with `pii_write(2, v)`, a lower-window address
indexes `ramL` below `16 * 32768` and an upper-window address indexes `ramU`
below 32768. -/
theorem bank_index_in_bounds
    (env : Rbcv2.Env) (s : Rbcv2.State) (l : Lottery.State) (a v : Nat)
    (ha : a < 0x10000) :
    ((Rbcv2.io_write env s 0x78 v).rambank = v
      ∧ (Rbcv2.io_write env s 0x7C v).rombank = v
      ∧ ∀ t, t = Rbcv2.io_write env s 0x78 v ∨ t = Rbcv2.io_write env s 0x7C v →
          ((Rbcv2.mem_read_cell t a).1 < 64 ∧ (Rbcv2.mem_read_cell t a).2 < 32768)
          ∧ ∀ c, Rbcv2.mem_write_cell t a = some c → c.1 < 64 ∧ c.2 < 32768)
    ∧ ((Lottery.pii_write l 2 v).ramsel = (v &&& 0xF0) >>> 4
      ∧ (a < 0x8000 → Lottery.ramL_index (Lottery.pii_write l 2 v) a < 16 * 32768)
      ∧ (0x8000 ≤ a → Lottery.ramU_index a < 32768)) := by
  have hcell : ∀ t : Rbcv2.State,
      ((Rbcv2.mem_read_cell t a).1 < 64 ∧ (Rbcv2.mem_read_cell t a).2 < 32768)
      ∧ ∀ c, Rbcv2.mem_write_cell t a = some c → c.1 < 64 ∧ c.2 < 32768 := by
    intro t
    have hm := and_7FFF_lt a
    have hr := and_1F_le t.rombank
    have hb := and_1F_le t.rambank
    constructor
    · unfold Rbcv2.mem_read_cell
      split_ifs <;> simp only [Rbcv2.HIRAM] <;> omega
    · intro c hc
      unfold Rbcv2.mem_write_cell at hc
      split_ifs at hc <;> simp only [Option.some.injEq, Rbcv2.HIRAM] at hc <;>
        subst hc <;> simp only [] <;> omega
  have e78 : (0x78 : Nat) &&& 0xFF = 0x78 := rfl
  have e7C : (0x7C : Nat) &&& 0xFF = 0x7C := rfl
  refine ⟨⟨?_, ?_, fun t _ => hcell t⟩, ?_, ?_, ?_⟩
  · simp [Rbcv2.io_write, e78]
  · simp [Rbcv2.io_write, e7C]
  · simp [Lottery.pii_write]
  · intro hlo
    have hn := nibble_hi_lt v
    simp only [Lottery.ramL_index, Lottery.pii_write]
    simp only [OfNat.ofNat_ne_zero, OfNat.ofNat_ne_one, or_self, if_false, if_true]
    omega
  · intro _
    simp only [Lottery.ramU_index]
    omega

/-- C2 at a concrete input: after `0xFF` is written to port `0x7C` and the
lower window is read at `0x7FFF`, and after `pii_write(2, 0xFF)`. -/
theorem bank_index_in_bounds_witness :
    Lottery.ramL_index (Lottery.pii_write Lottery.zero 2 0xFF) 0x7FFF < 16 * 32768 :=
  (bank_index_in_bounds Rbcv2.env_zero Rbcv2.zero Lottery.zero 0x7FFF 0xFF
    (by decide)).2.2.1 (by decide)

/-- C3: in rbcv2, for every lower-window address `a < 0x8000`: when bit 7 of
`rombank` is clear `mem_read` returns `ramrom[rombank & 0x1F][a]`, and the
register value masked to its low five bits reads the same byte; when bit 7 is
set `mem_read` returns, and `mem_write` assigns, `ramrom[32 + (rambank & 0x1F)][a]`,
and `rambank` masked to its low five bits selects the same cell. -/
theorem lower_window_bank_masked (s : Rbcv2.State) (a v : Nat) (ha : a < 0x8000) :
    (s.rombank &&& 0x80 = 0 →
        Rbcv2.mem_read s a = s.ramrom (s.rombank &&& 0x1F) a
        ∧ Rbcv2.mem_read { s with rombank := s.rombank &&& 0x1F } a = Rbcv2.mem_read s a)
    ∧ (s.rombank &&& 0x80 ≠ 0 →
        Rbcv2.mem_read s a = s.ramrom (32 + (s.rambank &&& 0x1F)) a
        ∧ Rbcv2.mem_write s a v
            = { s with ramrom := upd2 s.ramrom (32 + (s.rambank &&& 0x1F)) a v }
        ∧ Rbcv2.mem_read { s with rambank := s.rambank &&& 0x1F } a = Rbcv2.mem_read s a
        ∧ Rbcv2.mem_write_cell { s with rambank := s.rambank &&& 0x1F } a
            = Rbcv2.mem_write_cell s a) := by
  have hng : ¬ a > 32767 := by omega
  constructor
  · intro h
    simp [Rbcv2.mem_read, Rbcv2.mem_read_cell, hng, h, and_1F_and_80, and_1F_idem]
  · intro h
    simp [Rbcv2.mem_read, Rbcv2.mem_read_cell, Rbcv2.mem_write, Rbcv2.mem_write_cell,
      hng, h, and_1F_idem]

/-- C3 at the claim's example: ROM bank register `0x25` reads the same byte
as ROM bank register `0x05`. -/
theorem lower_window_bank_masked_witness :
    Rbcv2.mem_read { Rbcv2.zero with ramrom := fun b o => b + o, rombank := 0x25 } 0x1234
      = Rbcv2.mem_read { Rbcv2.zero with ramrom := fun b o => b + o, rombank := 0x05 } 0x1234 :=
  (((lower_window_bank_masked
      { Rbcv2.zero with ramrom := fun b o => b + o, rombank := 0x25 } 0x1234 0
      (by decide)).1 (by decide)).2).symm

/-- C4: in rbcv2, with the lower window mapped to ROM (bit 7 of `rombank`
clear), `mem_write(a, v)` for `a < 0x8000` returns the state it was given, so
no byte of `ramrom`, neither bank register and nothing else changes, and
`mem_read(a)` afterwards returns the byte it returned before. -/
theorem rom_write_discarded (s : Rbcv2.State) (a v : Nat) (ha : a < 0x8000)
    (hrom : s.rombank &&& 0x80 = 0) :
    Rbcv2.mem_write s a v = s
      ∧ Rbcv2.mem_read (Rbcv2.mem_write s a v) a = Rbcv2.mem_read s a := by
  have hng : ¬ a > 32767 := by omega
  have hw : Rbcv2.mem_write s a v = s := by
    simp [Rbcv2.mem_write, Rbcv2.mem_write_cell, hng, hrom]
  exact ⟨hw, by rw [hw]⟩

/-- C4 at a concrete input: ROM bank 3 selected, a write of `0x55` to address
`0x0100`. -/
theorem rom_write_discarded_witness :
    Rbcv2.mem_write { Rbcv2.zero with rombank := 3 } 0x0100 0x55
      = { Rbcv2.zero with rombank := 3 } :=
  (rom_write_discarded { Rbcv2.zero with rombank := 3 } 0x0100 0x55
    (by decide) (by decide)).1

/-! ## lottery: the RETI detector inside `mem_read` -/

theorem Lottery.sio2_check_im2_frame (s : Lottery.State) (ch : Nat) :
    (Lottery.sio2_check_im2 s ch).2.reti_events = s.reti_events
    ∧ (Lottery.sio2_check_im2 s ch).2.ramU = s.ramU
    ∧ (Lottery.sio2_check_im2 s ch).2.ramL = s.ramL
    ∧ (Lottery.sio2_check_im2 s ch).2.ramsel = s.ramsel
    ∧ (Lottery.sio2_check_im2 s ch).2.rstate = s.rstate := by
  unfold Lottery.sio2_check_im2
  simp only []
  split_ifs <;> simp [Lottery.setChan]

theorem Lottery.reti_event_frame (s : Lottery.State) :
    (Lottery.reti_event s).reti_events = s.reti_events + 1
    ∧ (Lottery.reti_event s).ramU = s.ramU
    ∧ (Lottery.reti_event s).ramL = s.ramL
    ∧ (Lottery.reti_event s).ramsel = s.ramsel
    ∧ (Lottery.reti_event s).rstate = s.rstate := by
  unfold Lottery.reti_event Lottery.poll_irq_event
  simp only []
  obtain ⟨h1, h2, h3, h4, h5⟩ := Lottery.sio2_check_im2_frame
    { Lottery.sio2_reti { s with reti_events := s.reti_events + 1 } 0 with live_irq := 0 } 0
  rw [h1, h2, h3, h4, h5]
  simp [Lottery.sio2_reti, Lottery.recalc_interrupts, Lottery.setChan]

/-- What one fetch of the byte `0xED` with M1 does to an idle detector. -/
theorem Lottery.mem_read_ED_idle (s : Lottery.State) (a : Nat)
    (hidle : s.rstate = 0) (h : Lottery.do_mem_read s a = 0xED) :
    Lottery.mem_read s true a = (0xED, Lottery.set_rstate s 1) := by
  simp [Lottery.mem_read, Lottery.set_rstate, h, hidle]

/-- What one read of the byte `0x4D` does when the detector has seen `0xED`. -/
theorem Lottery.mem_read_4D_armed (s : Lottery.State) (M1 : Bool) (a : Nat)
    (harmed : s.rstate = 1) (h : Lottery.do_mem_read s a = 0x4D) :
    Lottery.mem_read s M1 a = (0x4D, Lottery.set_rstate (Lottery.reti_event s) 0) := by
  simp [Lottery.mem_read, Lottery.set_rstate, h, harmed]

/-- What one fetch of a DD / FD / CB byte with M1 does. -/
theorem Lottery.mem_read_pfx (s : Lottery.State) (a p : Nat)
    (hp : p = 0xDD ∨ p = 0xFD ∨ p = 0xCB) (h : Lottery.do_mem_read s a = p) :
    Lottery.mem_read s true a = (p, Lottery.set_rstate s 2) := by
  rcases hp with hp | hp | hp <;> subst hp <;> simp [Lottery.mem_read, Lottery.set_rstate, h]

/-- A read whose byte is neither a DD / FD / CB byte and which finds the
detector in state 2 only returns the detector to idle. -/
theorem Lottery.mem_read_after_pfx (s : Lottery.State) (M1 : Bool) (a r : Nat)
    (hst : s.rstate = 2) (h : Lottery.do_mem_read s a = r)
    (hr : r ≠ 0xDD ∧ r ≠ 0xFD ∧ r ≠ 0xCB) :
    Lottery.mem_read s M1 a = (r, Lottery.set_rstate s 0) := by
  obtain ⟨h1, h2, h3⟩ := hr
  simp [Lottery.mem_read, Lottery.set_rstate, h, hst, h1, h2, h3]

/-- A read that finds the detector idle and whose byte is `0x4D` only leaves
it idle. -/
theorem Lottery.mem_read_4D_idle (s : Lottery.State) (M1 : Bool) (a : Nat)
    (hst : s.rstate = 0) (h : Lottery.do_mem_read s a = 0x4D) :
    Lottery.mem_read s M1 a = (0x4D, Lottery.set_rstate s 0) := by
  simp [Lottery.mem_read, Lottery.set_rstate, h, hst]

/-- C5: in lottery's `mem_read`, starting from the idle detector state, a read
with M1 asserted that returns `0xED` invokes `reti_event` zero times, and the
read that immediately follows it and returns `0x4D` (with or without M1)
invokes `reti_event` exactly once and leaves the detector idle. -/
theorem reti_detected_once (s : Lottery.State) (a1 a2 : Nat) (M1 : Bool)
    (hidle : s.rstate = 0)
    (h1 : Lottery.do_mem_read s a1 = 0xED) (h2 : Lottery.do_mem_read s a2 = 0x4D) :
    (Lottery.mem_read s true a1).1 = 0xED
      ∧ (Lottery.mem_read s true a1).2.reti_events = s.reti_events
      ∧ (Lottery.mem_read (Lottery.mem_read s true a1).2 M1 a2).1 = 0x4D
      ∧ (Lottery.mem_read (Lottery.mem_read s true a1).2 M1 a2).2.reti_events
          = s.reti_events + 1
      ∧ (Lottery.mem_read (Lottery.mem_read s true a1).2 M1 a2).2.rstate = 0 := by
  rw [Lottery.mem_read_ED_idle s a1 hidle h1]
  rw [Lottery.mem_read_4D_armed (Lottery.set_rstate s 1) M1 a2 rfl h2]
  refine ⟨rfl, rfl, rfl, ?_, rfl⟩
  exact (Lottery.reti_event_frame (Lottery.set_rstate s 1)).1

/-- C5 at a concrete input: `ED 4D` fetched from `0x8000` on the zeroed
machine. -/
theorem reti_detected_once_witness :
    (Lottery.mem_read (Lottery.mem_read Lottery.ed_4d true 0x8000).2 true 0x8001).2.reti_events
      = 1 :=
  (reti_detected_once Lottery.ed_4d 0x8000 0x8001 true rfl rfl rfl).2.2.2.1

/-- C6 refuted at a concrete input: on the zeroed machine with `DD ED 4D` at
`0x8000`, the three M1 fetches return `0xDD`, `0xED`, `0x4D`, start from the
idle detector, and `reti_event` has been invoked zero times after them, not
once. -/
theorem pfx_reti_not_detected :
    Lottery.dd_ed_4d.rstate = 0
      ∧ Lottery.dd_ed_4d.reti_events = 0
      ∧ (Lottery.mem_read Lottery.dd_ed_4d true 0x8000).1 = 0xDD
      ∧ (Lottery.mem_read (Lottery.mem_read Lottery.dd_ed_4d true 0x8000).2 true 0x8001).1 = 0xED
      ∧ (Lottery.mem_read (Lottery.mem_read (Lottery.mem_read Lottery.dd_ed_4d
            true 0x8000).2 true 0x8001).2 true 0x8002).1 = 0x4D
      ∧ (Lottery.mem_reads Lottery.dd_ed_4d
            [(true, 0x8000), (true, 0x8001), (true, 0x8002)]).reti_events = 0 := by
  refine ⟨rfl, rfl, ?_, ?_, ?_, ?_⟩ <;> decide

/-- C6 as amended: in lottery's `mem_read` a DD / FD / CB byte fetched just
before `0xED` suppresses the detection of that pair, and only of that pair:
for each such byte `p`, starting from the idle state (or any other detector
state), the M1 fetches returning `p`, `0xED`, `0x4D` invoke `reti_event` zero
times and leave the detector idle; when one further byte `x` that is not
DD / FD / CB is read between `p` and `0xED`, the pair is detected and
`reti_event` is invoked exactly once. -/
theorem pfx_suppresses_reti (s : Lottery.State) (a0 a1 a2 ax p x : Nat) (Mx M2 : Bool)
    (hp : p = 0xDD ∨ p = 0xFD ∨ p = 0xCB)
    (h0 : Lottery.do_mem_read s a0 = p)
    (h1 : Lottery.do_mem_read s a1 = 0xED)
    (h2 : Lottery.do_mem_read s a2 = 0x4D)
    (hx : Lottery.do_mem_read s ax = x)
    (hxn : x ≠ 0xDD ∧ x ≠ 0xFD ∧ x ≠ 0xCB) :
    ((Lottery.mem_reads s [(true, a0), (true, a1), (true, a2)]).reti_events = s.reti_events
      ∧ (Lottery.mem_reads s [(true, a0), (true, a1), (true, a2)]).rstate = 0)
    ∧ ((Lottery.mem_reads s [(true, a0), (Mx, ax), (true, a1), (M2, a2)]).reti_events
          = s.reti_events + 1
      ∧ (Lottery.mem_reads s [(true, a0), (Mx, ax), (true, a1), (M2, a2)]).rstate = 0) := by
  constructor
  · simp only [Lottery.mem_reads]
    rw [Lottery.mem_read_pfx s a0 p hp h0]
    rw [Lottery.mem_read_after_pfx (Lottery.set_rstate s 2) true a1 0xED rfl h1 (by decide)]
    rw [Lottery.mem_read_4D_idle (Lottery.set_rstate (Lottery.set_rstate s 2) 0) true a2 rfl h2]
    exact ⟨rfl, rfl⟩
  · simp only [Lottery.mem_reads]
    rw [Lottery.mem_read_pfx s a0 p hp h0]
    rw [Lottery.mem_read_after_pfx (Lottery.set_rstate s 2) Mx ax x rfl hx hxn]
    rw [Lottery.mem_read_ED_idle (Lottery.set_rstate (Lottery.set_rstate s 2) 0) a1 rfl h1]
    rw [Lottery.mem_read_4D_armed
      (Lottery.set_rstate (Lottery.set_rstate (Lottery.set_rstate s 2) 0) 1) M2 a2 rfl h2]
    refine ⟨?_, rfl⟩
    exact (Lottery.reti_event_frame
      (Lottery.set_rstate (Lottery.set_rstate (Lottery.set_rstate s 2) 0) 1)).1

/-- C6 as amended, at a concrete input: `DD ED 4D` on the zeroed machine, and
the same with the zero byte at `0x8003` read in between. -/
theorem pfx_suppresses_reti_witness :
    (Lottery.mem_reads Lottery.dd_ed_4d
        [(true, 0x8000), (true, 0x8003), (true, 0x8001), (true, 0x8002)]).reti_events = 1 :=
  (pfx_suppresses_reti Lottery.dd_ed_4d 0x8000 0x8001 0x8002 0x8003 0xDD 0 true true
    (Or.inl rfl) rfl rfl rfl rfl (by decide)).2.1

theorem Lottery.mem_read_data (s : Lottery.State) (a : Nat) (hidle : s.rstate = 0) :
    (Lottery.mem_read s false a).2 = s := by
  simp [Lottery.mem_read, hidle]
  cases s
  simp_all

/-- C7: in lottery's `mem_read`, for every memory contents and every run of
reads all made with M1 not asserted, starting from the idle detector state,
`reti_event` is never invoked (its count is unchanged) and the detector stays
idle. -/
theorem data_reads_never_reti (s : Lottery.State) (xs : List (Bool × Nat))
    (hidle : s.rstate = 0) (hdata : ∀ x ∈ xs, x.1 = false) :
    (Lottery.mem_reads s xs).reti_events = s.reti_events
      ∧ (Lottery.mem_reads s xs).rstate = 0 := by
  induction xs generalizing s with
  | nil => exact ⟨rfl, hidle⟩
  | cons x xs ih =>
    have hx : x.1 = false := hdata x (List.mem_cons_self x xs)
    have hrest : ∀ y ∈ xs, y.1 = false := fun y hy => hdata y (List.mem_cons_of_mem x hy)
    simp only [Lottery.mem_reads]
    rw [hx, Lottery.mem_read_data s x.2 hidle]
    exact ih s hidle hrest

/-- C7 at a concrete input: `ED 4D` read as data from `0x8000` on the zeroed
machine. -/
theorem data_reads_never_reti_witness :
    (Lottery.mem_reads Lottery.ed_4d [(false, 0x8000), (false, 0x8001)]).reti_events = 0 :=
  (data_reads_never_reti Lottery.ed_4d [(false, 0x8000), (false, 0x8001)] rfl
    (by decide)).1

/-! ## lottery: the SIO receive queue -/

theorem or_02_and_20 (x : Nat) : (x ||| 0x02) &&& 0x20 = x &&& 0x20 := by
  rw [Nat.and_distrib_right]
  have h : (0x02 : Nat) &&& 0x20 = 0 := rfl
  rw [h]
  exact Nat.or_zero _

theorem Lottery.setChan_sio (s : Lottery.State) (ch j : Nat) (c : Lottery.z80_sio_chan) :
    (Lottery.setChan s ch c).sio j = if j = ch then c else s.sio j := rfl

theorem Lottery.sio2_raise_int_chan (s : Lottery.State) (ch m j : Nat) :
    ((Lottery.sio2_raise_int s ch m).sio j).dptr = (s.sio j).dptr
    ∧ ((Lottery.sio2_raise_int s ch m).sio j).wr = (s.sio j).wr
    ∧ ((Lottery.sio2_raise_int s ch m).sio j).data = (s.sio j).data
    ∧ ((Lottery.sio2_raise_int s ch m).sio j).rr 1 &&& 0x20 = (s.sio j).rr 1 &&& 0x20 := by
  by_cases hc : ch = 0 <;> by_cases hj : j = ch <;> by_cases h0 : j = 0 <;>
    simp [Lottery.sio2_raise_int, Lottery.setChan, Lottery.recalc_interrupts, hc, hj, h0] <;>
    split_ifs <;> simp_all [upd, or_02_and_20]

theorem Lottery.sio2_clear_int_chan (s : Lottery.State) (ch m j : Nat) :
    ((Lottery.sio2_clear_int s ch m).sio j).dptr = (s.sio j).dptr
    ∧ ((Lottery.sio2_clear_int s ch m).sio j).wr = (s.sio j).wr
    ∧ ((Lottery.sio2_clear_int s ch m).sio j).data = (s.sio j).data := by
  by_cases hc : ch = 0 <;> by_cases hj : j = ch <;> by_cases h0 : j = 0 <;>
    simp [Lottery.sio2_clear_int, Lottery.setChan, Lottery.recalc_interrupts, hc, hj, h0] <;>
    split_ifs <;> simp_all

theorem Lottery.sio2_queue_inv (s : Lottery.State) (k c j : Nat)
    (h : (s.sio j).dptr ≤ 2) :
    ((Lottery.sio2_queue s k c).sio j).dptr ≤ 2
    ∧ ((Lottery.sio2_queue s k c).sio j).wr = (s.sio j).wr := by
  unfold Lottery.sio2_queue
  simp only []
  split_ifs <;>
    simp only [(Lottery.sio2_raise_int_chan _ _ _ _).1, (Lottery.sio2_raise_int_chan _ _ _ _).2.1,
      Lottery.setChan_sio] <;>
    by_cases hj : j = k <;> simp [hj] <;> first | exact h | (subst hj; omega)

theorem Lottery.sio2_raise_int_if_chan (s : Lottery.State) (ch m j : Nat)
    (p : Prop) [Decidable p] :
    ((if p then Lottery.sio2_raise_int s ch m else s).sio j).dptr = (s.sio j).dptr
    ∧ ((if p then Lottery.sio2_raise_int s ch m else s).sio j).wr = (s.sio j).wr
    ∧ ((if p then Lottery.sio2_raise_int s ch m else s).sio j).data = (s.sio j).data
    ∧ ((if p then Lottery.sio2_raise_int s ch m else s).sio j).rr 1 &&& 0x20
        = (s.sio j).rr 1 &&& 0x20 := by
  split_ifs
  · exact Lottery.sio2_raise_int_chan s ch m j
  · exact ⟨rfl, rfl, rfl, rfl⟩

/-- What a data-port read does to the queue of every channel: the channel
read has its three slots shifted down by one and its occupancy decremented
unless already zero, and the byte returned is its old slot 0. -/
theorem Lottery.sio2_read_data_chan (s : Lottery.State) (b : Bool) (j : Nat) :
    (Lottery.sio2_read s (if b then 2 else 0)).1 = (s.sio (Lottery.chan_index b)).data 0
    ∧ ((Lottery.sio2_read s (if b then 2 else 0)).2.sio j).dptr
        = (if j = Lottery.chan_index b then
            (if (s.sio j).dptr ≠ 0 then (s.sio j).dptr - 1 else (s.sio j).dptr)
           else (s.sio j).dptr)
    ∧ ((Lottery.sio2_read s (if b then 2 else 0)).2.sio j).wr = (s.sio j).wr
    ∧ ((Lottery.sio2_read s (if b then 2 else 0)).2.sio j).data
        = (if j = Lottery.chan_index b then
            upd (upd (s.sio j).data 0 ((s.sio j).data 1)) 1 ((s.sio j).data 2)
           else (s.sio j).data) := by
  have e1 : (if b then 2 else 0 : Nat) &&& 1 = 0 := by cases b <;> rfl
  have e2 : (if (if b then 2 else 0 : Nat) &&& 2 ≠ 0 then 1 else 0 : Nat)
      = Lottery.chan_index b := by cases b <;> rfl
  unfold Lottery.sio2_read
  simp only [e1, e2, ne_eq, not_true_eq_false, if_false]
  refine ⟨?_, ?_, ?_, ?_⟩
  · trivial
  · rw [(Lottery.sio2_raise_int_if_chan _ _ _ _ _).1]
    by_cases hj : j = Lottery.chan_index b <;>
      simp [hj, Lottery.setChan_sio, (Lottery.sio2_clear_int_chan _ _ _ _).1]
  · rw [(Lottery.sio2_raise_int_if_chan _ _ _ _ _).2.1]
    by_cases hj : j = Lottery.chan_index b <;>
      simp [hj, Lottery.setChan_sio, (Lottery.sio2_clear_int_chan _ _ _ _).2.1]
  · rw [(Lottery.sio2_raise_int_if_chan _ _ _ _ _).2.2.1]
    by_cases hj : j = Lottery.chan_index b <;>
      simp [hj, Lottery.setChan_sio, (Lottery.sio2_clear_int_chan _ _ _ _).2.2]

theorem Lottery.sio2_read_data_inv (s : Lottery.State) (b : Bool) (j : Nat)
    (h : (s.sio j).dptr ≤ 2) :
    ((Lottery.sio2_read s (if b then 2 else 0)).2.sio j).dptr ≤ 2
    ∧ ((Lottery.sio2_read s (if b then 2 else 0)).2.sio j).wr = (s.sio j).wr := by
  obtain ⟨_, h2, h3, _⟩ := Lottery.sio2_read_data_chan s b j
  refine ⟨?_, h3⟩
  rw [h2]
  split_ifs <;> omega

/-- What `sio2_queue` does to the queue of a receive-enabled channel. -/
theorem Lottery.sio2_queue_enabled (s : Lottery.State) (ch c : Nat)
    (hen : (s.sio ch).wr 3 &&& 1 ≠ 0) :
    ((Lottery.sio2_queue s ch c).sio ch).data
        = upd (s.sio ch).data (Lottery.sio2_queue_slot (s.sio ch).dptr) c
    ∧ ((Lottery.sio2_queue s ch c).sio ch).dptr
        = (if (s.sio ch).dptr = 2 then 2 else ((s.sio ch).dptr + 1) % 256)
    ∧ ((Lottery.sio2_queue s ch c).sio ch).rr 1 &&& 0x20
        = (if (s.sio ch).dptr = 2 then ((s.sio ch).rr 1 ||| 0x20) &&& 0x20
           else (s.sio ch).rr 1 &&& 0x20) := by
  unfold Lottery.sio2_queue
  simp only [hen, if_false]
  split_ifs <;>
    simp [(Lottery.sio2_raise_int_chan _ _ _ _).1, (Lottery.sio2_raise_int_chan _ _ _ _).2.2.1,
      (Lottery.sio2_raise_int_chan _ _ _ _).2.2.2, Lottery.setChan_sio, upd,
      Lottery.sio2_queue_slot, *]

theorem Lottery.rx_run_inv (s : Lottery.State) (ch : Nat) (ops : List Lottery.RxOp)
    (h : (s.sio ch).dptr ≤ 2) :
    ((Lottery.rx_run s ops).sio ch).dptr ≤ 2
    ∧ ((Lottery.rx_run s ops).sio ch).wr = (s.sio ch).wr := by
  induction ops generalizing s with
  | nil => exact ⟨h, rfl⟩
  | cons op ops ih =>
    have hstep : ((Lottery.rx_step s op).sio ch).dptr ≤ 2
        ∧ ((Lottery.rx_step s op).sio ch).wr = (s.sio ch).wr := by
      cases op with
      | queue b c => exact Lottery.sio2_queue_inv s (Lottery.chan_index b) c ch h
      | read b => exact Lottery.sio2_read_data_inv s b ch h
    have h' := ih (Lottery.rx_step s op) hstep.1
    exact ⟨h'.1, h'.2.trans hstep.2⟩

/-- Over every run of `sio2_queue` pushes and data-port reads from an empty
queue on a receive-enabled channel, the occupancy counter `dptr` never exceeds
2, so the occupancy 3 of a full three-entry queue is never reached; a further
push writes exactly one slot of `data[]`, whose index is below 3; and at
occupancy 2 the push takes the overrun arm of `sio2_queue` (`dptr == 2`): it
leaves `dptr` unchanged, stores the byte in `data[2]` and sets RR1 bit `0x20`. -/
theorem Lottery.rx_run_in_bounds (s : Lottery.State) (ch c : Nat) (ops : List Lottery.RxOp)
    (hen : (s.sio ch).wr 3 &&& 1 ≠ 0) (hempty : (s.sio ch).dptr = 0) :
    ((Lottery.rx_run s ops).sio ch).dptr ≤ 2
    ∧ (∃ i, i < 3 ∧ ((Lottery.sio2_queue (Lottery.rx_run s ops) ch c).sio ch).data
          = upd ((Lottery.rx_run s ops).sio ch).data i c)
    ∧ (2 ≤ ((Lottery.rx_run s ops).sio ch).dptr →
        ((Lottery.sio2_queue (Lottery.rx_run s ops) ch c).sio ch).dptr
            = ((Lottery.rx_run s ops).sio ch).dptr
        ∧ ((Lottery.sio2_queue (Lottery.rx_run s ops) ch c).sio ch).data 2 = c
        ∧ ((Lottery.sio2_queue (Lottery.rx_run s ops) ch c).sio ch).rr 1 &&& 0x20 ≠ 0) := by
  obtain ⟨hd, hw⟩ := Lottery.rx_run_inv s ch ops (by omega)
  have hen' : ((Lottery.rx_run s ops).sio ch).wr 3 &&& 1 ≠ 0 := by rw [hw]; exact hen
  obtain ⟨q1, q2, q3⟩ := Lottery.sio2_queue_enabled (Lottery.rx_run s ops) ch c hen'
  refine ⟨hd,
    ⟨Lottery.sio2_queue_slot ((Lottery.rx_run s ops).sio ch).dptr, ?_, q1⟩, ?_⟩
  · unfold Lottery.sio2_queue_slot
    split_ifs <;> omega
  · intro hfull
    have h2 : ((Lottery.rx_run s ops).sio ch).dptr = 2 := by omega
    refine ⟨?_, ?_, ?_⟩
    · rw [q2, if_pos h2, h2]
    · rw [q1, h2]
      simp [Lottery.sio2_queue_slot, upd]
    · rw [q3, if_pos h2]
      exact or_and_self_ne_zero _ _ (by decide)

/-- C9 evaluated on the code: on the receive-enabled machine (freshly reset,
empty queue) the pushes of `0x41`, `0x42`, `0x43` leave the occupancy at 2,
set the overrun flag RR1 bit `0x20` and the error interrupt bit `INT_ERR`;
the three data-port reads that follow return `0x41`, `0x42`, `0x43`, and RR0
bit 0 is already clear after the second read. -/
theorem rx_third_byte_overruns :
    (Lottery.rx_enabled.sio 0).dptr = 0
    ∧ (Lottery.rx_enabled.sio 0).rr 1 &&& 0x20 = 0
    ∧ (Lottery.rx_enabled.sio 0).intbits = 0
    ∧ ((Lottery.rx_run Lottery.rx_enabled
          [Lottery.RxOp.queue false 0x41, Lottery.RxOp.queue false 0x42]).sio 0).rr 1 &&& 0x20 = 0
    ∧ ((Lottery.rx_run Lottery.rx_enabled
          [Lottery.RxOp.queue false 0x41, Lottery.RxOp.queue false 0x42,
           Lottery.RxOp.queue false 0x43]).sio 0).dptr = 2
    ∧ ((Lottery.rx_run Lottery.rx_enabled
          [Lottery.RxOp.queue false 0x41, Lottery.RxOp.queue false 0x42,
           Lottery.RxOp.queue false 0x43]).sio 0).rr 1 &&& 0x20 = 0x20
    ∧ ((Lottery.rx_run Lottery.rx_enabled
          [Lottery.RxOp.queue false 0x41, Lottery.RxOp.queue false 0x42,
           Lottery.RxOp.queue false 0x43]).sio 0).intbits &&& Lottery.INT_ERR = Lottery.INT_ERR
    ∧ (Lottery.sio2_read (Lottery.rx_run Lottery.rx_enabled
          [Lottery.RxOp.queue false 0x41, Lottery.RxOp.queue false 0x42,
           Lottery.RxOp.queue false 0x43]) 0).1 = 0x41
    ∧ (Lottery.sio2_read (Lottery.rx_run Lottery.rx_enabled
          [Lottery.RxOp.queue false 0x41, Lottery.RxOp.queue false 0x42,
           Lottery.RxOp.queue false 0x43, Lottery.RxOp.read false]) 0).1 = 0x42
    ∧ ((Lottery.rx_run Lottery.rx_enabled
          [Lottery.RxOp.queue false 0x41, Lottery.RxOp.queue false 0x42,
           Lottery.RxOp.queue false 0x43, Lottery.RxOp.read false,
           Lottery.RxOp.read false]).sio 0).rr 0 &&& 1 = 0
    ∧ (Lottery.sio2_read (Lottery.rx_run Lottery.rx_enabled
          [Lottery.RxOp.queue false 0x41, Lottery.RxOp.queue false 0x42,
           Lottery.RxOp.queue false 0x43, Lottery.RxOp.read false,
           Lottery.RxOp.read false]) 0).1 = 0x43 := by
  refine ⟨?_, ?_, ?_, ?_, ?_, ?_, ?_, ?_, ?_, ?_, ?_⟩ <;> decide

/-! ## lottery: interrupt delivery from the SIO -/

theorem Lottery.sio2_raise_int_live (s : Lottery.State) (ch m : Nat) :
    (Lottery.sio2_raise_int s ch m).live_irq = s.live_irq
    ∧ (Lottery.sio2_raise_int s ch m).z80int = s.z80int
    ∧ (Lottery.sio2_raise_int s ch m).reti_events = s.reti_events := by
  unfold Lottery.sio2_raise_int
  simp only [Lottery.setChan, Lottery.recalc_interrupts]
  split_ifs <;> exact ⟨rfl, rfl, rfl⟩

theorem Lottery.sio2_clear_int_live (s : Lottery.State) (ch m : Nat) :
    (Lottery.sio2_clear_int s ch m).live_irq = s.live_irq
    ∧ (Lottery.sio2_clear_int s ch m).z80int = s.z80int
    ∧ (Lottery.sio2_clear_int s ch m).reti_events = s.reti_events := by
  unfold Lottery.sio2_clear_int
  simp only [Lottery.setChan, Lottery.recalc_interrupts]
  split_ifs <;> exact ⟨rfl, rfl, rfl⟩

theorem Lottery.sio2_queue_live (s : Lottery.State) (ch c : Nat) :
    (Lottery.sio2_queue s ch c).live_irq = s.live_irq := by
  unfold Lottery.sio2_queue
  simp only []
  split_ifs <;>
    simp only [(Lottery.sio2_raise_int_live _ _ _).1, Lottery.setChan]

theorem Lottery.sio2_tx_ready_live (s : Lottery.State) (ch : Nat) :
    (Lottery.sio2_tx_ready s ch).live_irq = s.live_irq := by
  unfold Lottery.sio2_tx_ready
  simp only []
  split_ifs <;>
    simp only [(Lottery.sio2_raise_int_live _ _ _).1, Lottery.setChan]

theorem Lottery.sio2_channel_timer_live (s : Lottery.State) (ch ab r : Nat) (k : Option Nat) :
    (Lottery.sio2_channel_timer s ch ab r k).live_irq = s.live_irq := by
  unfold Lottery.sio2_channel_timer
  simp only []
  split_ifs <;>
    simp only [Lottery.sio2_tx_ready_live, Lottery.sio2_queue_live]

theorem Lottery.sio2_timer_live (s : Lottery.State) (r : Nat) (k : Option Nat) :
    (Lottery.sio2_timer s r k).live_irq = s.live_irq := by
  simp only [Lottery.sio2_timer, Lottery.sio2_channel_timer_live]

theorem Lottery.timer_pulse_live (s : Lottery.State) :
    (Lottery.timer_pulse s).live_irq = s.live_irq := by
  unfold Lottery.timer_pulse
  simp only []
  split_ifs <;>
    simp only [(Lottery.sio2_raise_int_live _ _ _).1, Lottery.setChan]

theorem Lottery.sio2_channel_reset_live (s : Lottery.State) (ch : Nat) :
    (Lottery.sio2_channel_reset s ch).live_irq = s.live_irq := by
  simp only [Lottery.sio2_channel_reset, (Lottery.sio2_clear_int_live _ _ _).1, Lottery.setChan]

theorem Lottery.sio_reset_live (s : Lottery.State) :
    (Lottery.sio_reset s).live_irq = s.live_irq := by
  simp only [Lottery.sio_reset, Lottery.sio2_channel_reset_live]

theorem Lottery.sio2_read_live (s : Lottery.State) (addr : Nat) :
    (Lottery.sio2_read s addr).2.live_irq = s.live_irq := by
  unfold Lottery.sio2_read
  simp only []
  split_ifs <;>
    simp only [(Lottery.sio2_raise_int_live _ _ _).1, (Lottery.sio2_clear_int_live _ _ _).1,
      Lottery.setChan]

theorem Lottery.sio2_command_live (s : Lottery.State) (ch val : Nat) :
    (Lottery.sio2_command s ch val).live_irq = s.live_irq := by
  unfold Lottery.sio2_command
  simp only []
  split_ifs <;>
    simp only [(Lottery.sio2_clear_int_live _ _ _).1, Lottery.sio2_channel_reset_live,
      Lottery.setChan]

theorem Lottery.sio2_write_live (s : Lottery.State) (addr val : Nat) :
    (Lottery.sio2_write s addr val).live_irq = s.live_irq := by
  unfold Lottery.sio2_write
  simp only []
  split_ifs <;>
    simp only [(Lottery.sio2_clear_int_live _ _ _).1, Lottery.sio2_command_live,
      Lottery.setChan]

theorem Lottery.poll_irq_event_live (s : Lottery.State) :
    (Lottery.poll_irq_event s).live_irq = s.live_irq
    ∨ (Lottery.poll_irq_event s).live_irq = Lottery.IRQ_SIOA := by
  unfold Lottery.poll_irq_event Lottery.sio2_check_im2
  simp only []
  by_cases h : (s.sio 0).irq ≠ 0
  · right; rw [if_pos h]; simp
  · left; rw [if_neg h]

theorem Lottery.reti_event_live (s : Lottery.State) :
    (Lottery.reti_event s).live_irq = 0
    ∨ (Lottery.reti_event s).live_irq = Lottery.IRQ_SIOA := by
  unfold Lottery.reti_event
  simp only []
  rcases Lottery.poll_irq_event_live
    { Lottery.sio2_reti { s with reti_events := s.reti_events + 1 } 0 with live_irq := 0 }
    with h | h
  · left; rw [h]
  · right; exact h

theorem Lottery.sio_step_live (s : Lottery.State) (op : Lottery.SioOp)
    (h : s.live_irq = 0 ∨ s.live_irq = Lottery.IRQ_SIOA) :
    (Lottery.sio_step s op).live_irq = 0
    ∨ (Lottery.sio_step s op).live_irq = Lottery.IRQ_SIOA := by
  cases op with
  | read addr => simp only [Lottery.sio_step, Lottery.sio2_read_live]; exact h
  | write addr val => simp only [Lottery.sio_step, Lottery.sio2_write_live]; exact h
  | queue b c => simp only [Lottery.sio_step, Lottery.sio2_queue_live]; exact h
  | timer r k => simp only [Lottery.sio_step, Lottery.sio2_timer_live]; exact h
  | pulse => simp only [Lottery.sio_step, Lottery.timer_pulse_live]; exact h
  | poll =>
    simp only [Lottery.sio_step]
    rcases Lottery.poll_irq_event_live s with e | e
    · rw [e]; exact h
    · right; exact e
  | reti => exact Lottery.reti_event_live s

theorem Lottery.sio_run_live (ops : List Lottery.SioOp) (s : Lottery.State)
    (h : s.live_irq = 0 ∨ s.live_irq = Lottery.IRQ_SIOA) :
    (Lottery.sio_run s ops).live_irq = 0
    ∨ (Lottery.sio_run s ops).live_irq = Lottery.IRQ_SIOA := by
  induction ops generalizing s with
  | nil => exact h
  | cons op rest ih =>
    exact ih (Lottery.sio_step s op) (Lottery.sio_step_live s op h)

theorem Lottery.sio2_raise_int_B_irqA (s : Lottery.State) (m : Nat) :
    ((Lottery.sio2_raise_int s 1 m).sio 0).irq = (s.sio 0).irq := by
  simp only [Lottery.sio2_raise_int, Lottery.setChan, Lottery.recalc_interrupts]
  split_ifs <;> simp_all

/-- C11: in every state reached from `sio_reset` (entered with `live_irq` at
its initial 0) through any sequence of `sio2_read`, `sio2_write`, `sio2_queue`,
`sio2_timer`, `timer_pulse`, `poll_irq_event` and `reti_event`, `live_irq` is 0
or `IRQ_SIOA`, never `IRQ_SIOB`; and when channel A's `irq` flag is clear
there, raising any interrupt condition `m` on channel B records it in channel
B's `intbits`, leaves channel A's flag clear, and a following `poll_irq_event`
passes nothing to `Z80INT` and leaves `live_irq` as it was. -/
theorem only_channel_A_owns_line (s0 : Lottery.State) (ops : List Lottery.SioOp) (m : Nat)
    (h0 : s0.live_irq = 0) :
    (Lottery.sio_run (Lottery.sio_reset s0) ops).live_irq ≠ Lottery.IRQ_SIOB
    ∧ (((Lottery.sio_run (Lottery.sio_reset s0) ops).sio 0).irq = 0 →
        ((Lottery.sio2_raise_int (Lottery.sio_run (Lottery.sio_reset s0) ops) 1 m).sio 1).intbits
            = ((Lottery.sio_run (Lottery.sio_reset s0) ops).sio 1).intbits ||| m
        ∧ Lottery.poll_irq_event
            (Lottery.sio2_raise_int (Lottery.sio_run (Lottery.sio_reset s0) ops) 1 m)
            = Lottery.sio2_raise_int (Lottery.sio_run (Lottery.sio_reset s0) ops) 1 m
        ∧ (Lottery.poll_irq_event
            (Lottery.sio2_raise_int (Lottery.sio_run (Lottery.sio_reset s0) ops) 1 m)).z80int
            = (Lottery.sio_run (Lottery.sio_reset s0) ops).z80int
        ∧ (Lottery.poll_irq_event
            (Lottery.sio2_raise_int (Lottery.sio_run (Lottery.sio_reset s0) ops) 1 m)).live_irq
            = (Lottery.sio_run (Lottery.sio_reset s0) ops).live_irq) := by
  generalize ht : Lottery.sio_run (Lottery.sio_reset s0) ops = t
  have hlive : t.live_irq = 0 ∨ t.live_irq = Lottery.IRQ_SIOA := by
    rw [← ht]
    exact Lottery.sio_run_live ops _ (Or.inl ((Lottery.sio_reset_live s0).trans h0))
  refine ⟨?_, ?_⟩
  · rcases hlive with h | h <;> rw [h] <;> decide
  · intro hA
    have hirq : ((Lottery.sio2_raise_int t 1 m).sio 0).irq = 0 :=
      (Lottery.sio2_raise_int_B_irqA t m).trans hA
    have hpoll : Lottery.poll_irq_event (Lottery.sio2_raise_int t 1 m)
        = Lottery.sio2_raise_int t 1 m := by
      unfold Lottery.poll_irq_event Lottery.sio2_check_im2
      simp only []
      rw [if_neg (by rw [hirq]; decide)]
    refine ⟨?_, hpoll, ?_, ?_⟩
    · simp only [Lottery.sio2_raise_int, Lottery.setChan, Lottery.recalc_interrupts]
      split_ifs <;> simp_all
    · rw [hpoll]; exact (Lottery.sio2_raise_int_live t 1 m).2.1
    · rw [hpoll]; exact (Lottery.sio2_raise_int_live t 1 m).1

/-- C11 at a concrete input: firmware enables channel B's receiver with an
interrupt on every character, a byte arrives on channel B and the arbiter
polls.  Channel B's `irq` flag is then set and channel A's clear, `live_irq` is
not `IRQ_SIOB`, and the poll after a further error condition on channel B
injects nothing. -/
theorem only_channel_A_owns_line_witness :
    Lottery.zero.live_irq = 0
    ∧ (Lottery.sio_run (Lottery.sio_reset Lottery.zero) Lottery.chanB_rx_ops).live_irq
        ≠ Lottery.IRQ_SIOB
    ∧ ((Lottery.sio_run (Lottery.sio_reset Lottery.zero) Lottery.chanB_rx_ops).sio 1).irq = 1
    ∧ ((Lottery.sio_run (Lottery.sio_reset Lottery.zero) Lottery.chanB_rx_ops).sio 0).irq = 0
    ∧ (Lottery.poll_irq_event (Lottery.sio2_raise_int
        (Lottery.sio_run (Lottery.sio_reset Lottery.zero) Lottery.chanB_rx_ops)
        1 Lottery.INT_ERR)).z80int
        = (Lottery.sio_run (Lottery.sio_reset Lottery.zero) Lottery.chanB_rx_ops).z80int :=
  ⟨rfl,
   (only_channel_A_owns_line Lottery.zero Lottery.chanB_rx_ops Lottery.INT_ERR rfl).1,
   by decide, by decide,
   ((only_channel_A_owns_line Lottery.zero Lottery.chanB_rx_ops Lottery.INT_ERR rfl).2
      (by decide)).2.2.1⟩

/-- C12: `poll_irq_event` does not consult `live_irq`.  On the programmed
machine, after a byte is queued on channel A the first poll sets `live_irq` to
`IRQ_SIOA`, passes `0xEC` to `Z80INT` and leaves `0xEC` in the channel's
vector; a second poll with no return-from-interrupt in between passes a second
vector, `0xCC`, to `Z80INT` and changes the channel's vector to `0xCC`. -/
theorem poll_while_live_injects_again :
    (Lottery.poll_irq_event (Lottery.sio2_queue Lottery.rx_irq_ready 0 0x41)).live_irq
        = Lottery.IRQ_SIOA
    ∧ (Lottery.poll_irq_event (Lottery.sio2_queue Lottery.rx_irq_ready 0 0x41)).z80int = [0xEC]
    ∧ ((Lottery.poll_irq_event (Lottery.sio2_queue Lottery.rx_irq_ready 0 0x41)).sio 0).vector
        = 0xEC
    ∧ (Lottery.poll_irq_event (Lottery.poll_irq_event
        (Lottery.sio2_queue Lottery.rx_irq_ready 0 0x41))).z80int = [0xEC, 0xCC]
    ∧ ((Lottery.poll_irq_event (Lottery.poll_irq_event
        (Lottery.sio2_queue Lottery.rx_irq_ready 0 0x41))).sio 0).vector = 0xCC
    ∧ (Lottery.poll_irq_event (Lottery.poll_irq_event
        (Lottery.sio2_queue Lottery.rx_irq_ready 0 0x41))).live_irq = Lottery.IRQ_SIOA := by
  decide

/-! ## rbcv2: the disk bridge -/

theorem and_two_pow_ne_zero (a k : Nat) : a &&& 2 ^ k ≠ 0 ↔ a.testBit k = true := by
  rw [Nat.and_two_pow]
  cases a.testBit k <;> simp

theorem testBit_not8 (v k : Nat) (hk : k < 8) : (not8 v).testBit k = !v.testBit k := by
  have e : not8 v = 2 ^ 8 - (v % 2 ^ 8 + 1) := by
    unfold not8
    have := Nat.mod_lt v (show 0 < 256 by decide)
    norm_num
    omega
  rw [e, Nat.testBit_two_pow_sub_succ (Nat.mod_lt _ (by decide)), Nat.testBit_mod_two_pow]
  simp [hk]

theorem dlow_bit (old v k : Nat) (hk : k < 8) :
    (not8 v &&& (old ^^^ v)) &&& 2 ^ k ≠ 0 ↔ (old &&& 2 ^ k ≠ 0 ∧ v &&& 2 ^ k = 0) := by
  have hv : v &&& 2 ^ k = 0 ↔ v.testBit k = false := by
    have := and_two_pow_ne_zero v k
    cases h : v.testBit k <;> simp_all
  rw [and_two_pow_ne_zero, and_two_pow_ne_zero, hv, Nat.testBit_and, Nat.testBit_xor,
    testBit_not8 v k hk]
  cases old.testBit k <;> cases v.testBit k <;> simp

theorem dhigh_bit (old v k : Nat) :
    (v &&& (old ^^^ v)) &&& 2 ^ k ≠ 0 ↔ (old &&& 2 ^ k = 0 ∧ v &&& 2 ^ k ≠ 0) := by
  have ho : old &&& 2 ^ k = 0 ↔ old.testBit k = false := by
    have := and_two_pow_ne_zero old k
    cases h : old.testBit k <;> simp_all
  rw [and_two_pow_ne_zero, and_two_pow_ne_zero, ho, Nat.testBit_and, Nat.testBit_xor]
  cases old.testBit k <;> cases v.testBit k <;> simp

theorem pio_word_lt (p0 p1 : Nat) (h0 : p0 < 256) (h1 : p1 < 256) :
    (p1 <<< 8) ||| p0 < 65536 := by
  have e1 : p1 <<< 8 < 2 ^ 16 := by
    rw [Nat.shiftLeft_eq]
    norm_num
    omega
  have e0 : p0 < 2 ^ 16 := by
    norm_num
    omega
  exact Nat.or_lt_two_pow e1 e0

theorem dlow_20 (old v : Nat) :
    (not8 v &&& (old ^^^ v)) &&& 0x20 ≠ 0 ↔ (old &&& 0x20 ≠ 0 ∧ v &&& 0x20 = 0) :=
  dlow_bit old v 5 (by decide)

theorem dhigh_40 (old v : Nat) :
    (v &&& (old ^^^ v)) &&& 0x40 ≠ 0 ↔ (old &&& 0x40 = 0 ∧ v &&& 0x40 ≠ 0) :=
  dhigh_bit old v 6

theorem Rbcv2.pio_write_ctrl (env : Rbcv2.Env) (s : Rbcv2.State) (v : Nat)
    (hide : s.ide0 = true) (hrst : v &&& 0x80 = 0) :
    Rbcv2.pio_write env s 2 v =
      if s.pioreg 2 &&& 0x20 ≠ 0 ∧ v &&& 0x20 = 0 then
        Rbcv2.emit { s with pioreg := upd s.pioreg 2 v }
          (Rbcv2.Call.ide_write16 (Rbcv2.pio_selector v)
            (((s.pioreg 1 <<< 8) ||| s.pioreg 0) % 65536))
      else if s.pioreg 2 &&& 0x40 = 0 ∧ v &&& 0x40 ≠ 0 then
        { s with
          pioreg := upd (upd (upd s.pioreg 2 v) 0
            (env.ide_read16 s.calls (Rbcv2.pio_selector v) % 65536 % 256)) 1
            ((env.ide_read16 s.calls (Rbcv2.pio_selector v) % 65536) >>> 8 % 256),
          calls := s.calls ++ [Rbcv2.Call.ide_read16 (Rbcv2.pio_selector v)] }
      else { s with pioreg := upd s.pioreg 2 v } := by
  have h1 := dlow_20 (s.pioreg 2) v
  have h2 := dhigh_40 (s.pioreg 2) v
  unfold Rbcv2.pio_write
  simp only [Rbcv2.pio_selector, Rbcv2.emit]
  rw [if_neg (by decide), if_pos trivial, hide]
  simp only [Bool.not_true, Bool.false_eq_true, if_false]
  rw [if_neg (by rw [hrst]; decide)]
  by_cases hF : s.pioreg 2 &&& 0x20 ≠ 0 ∧ v &&& 0x20 = 0
  · rw [if_pos (h1.mpr hF), if_pos hF]
    simp [upd]
  · rw [if_neg (fun h => hF (h1.mp h)), if_neg hF]
    by_cases hR : s.pioreg 2 &&& 0x40 = 0 ∧ v &&& 0x40 ≠ 0
    · rw [if_pos (h2.mpr hR), if_pos hR]
    · rw [if_neg (fun h => hR (h2.mp h)), if_neg hR]

/-- C13, the claim as written fails: with a device attached, data word `0x1234`
loaded and the control register at 0, writing `0x20` (bit 5 goes 0 to 1, bit 7
clear) issues no call at all; the following write of `0x00` (bit 5 goes 1 to
0) issues the `ide_write16`. -/
theorem write_strobe_rising_no_transfer :
    Rbcv2.ide_data_loaded.ide0 = true
    ∧ Rbcv2.ide_data_loaded.pioreg 2 = 0
    ∧ (Rbcv2.pio_write Rbcv2.env_zero Rbcv2.ide_data_loaded 2 0x20).calls = []
    ∧ (Rbcv2.pio_write Rbcv2.env_zero
        (Rbcv2.pio_write Rbcv2.env_zero Rbcv2.ide_data_loaded 2 0x20) 2 0x00).calls
        = [Rbcv2.Call.ide_write16 0 0x1234] := by
  decide

/-- C13, amended: with a device attached, bit 7 clear in the written value `v`
and the two shadow data registers holding bytes, `pio_write(2, v)` that takes
bit 5 of the control register from 1 to 0 issues exactly one call, that call
being `ide_write16` with selector `(v & 7) + (2 if bit 4 of v)` and value
`(pioreg[1] << 8) | pioreg[0]`; a write that takes bit 5 from 0 to 1 or leaves
it unchanged issues no `ide_write16`. -/
theorem write_strobe_falling_edge (env : Rbcv2.Env) (s : Rbcv2.State) (v : Nat)
    (hide : s.ide0 = true) (hrst : v &&& 0x80 = 0)
    (h0 : s.pioreg 0 < 256) (h1 : s.pioreg 1 < 256) :
    ((s.pioreg 2 &&& 0x20 ≠ 0 ∧ v &&& 0x20 = 0) →
      (Rbcv2.pio_write env s 2 v).calls
        = s.calls ++ [Rbcv2.Call.ide_write16 ((v &&& 7) + (if v &&& 0x10 ≠ 0 then 2 else 0))
            ((s.pioreg 1 <<< 8) ||| s.pioreg 0)])
    ∧ (¬ (s.pioreg 2 &&& 0x20 ≠ 0 ∧ v &&& 0x20 = 0) →
      Rbcv2.writes16 (Rbcv2.pio_write env s 2 v).calls = Rbcv2.writes16 s.calls) := by
  rw [Rbcv2.pio_write_ctrl env s v hide hrst]
  refine ⟨fun hF => ?_, fun hF => ?_⟩
  · rw [if_pos hF, Nat.mod_eq_of_lt (pio_word_lt _ _ h0 h1)]
    rfl
  · rw [if_neg hF]
    split_ifs <;> simp [Rbcv2.writes16, Rbcv2.is_write16, List.countP_append]

/-- C13, amended, at a concrete input: with `0x1234` loaded and the control
register at `0x33`, writing `0x13` (bit 5 falls, bit 4 set, address 3) issues
`ide_write16(5, 0x1234)`. -/
theorem write_strobe_falling_edge_witness :
    (Rbcv2.pio_write Rbcv2.env_zero
      (Rbcv2.pio_write Rbcv2.env_zero Rbcv2.ide_data_loaded 2 0x33) 2 0x13).calls
      = [Rbcv2.Call.ide_write16 5 0x1234] :=
  ((write_strobe_falling_edge Rbcv2.env_zero
      (Rbcv2.pio_write Rbcv2.env_zero Rbcv2.ide_data_loaded 2 0x33) 0x13
      (by decide) (by decide) (by decide) (by decide)).1 (by decide)).trans (by decide)

/-- C14: with a device attached, bit 7 clear in the written value `v` and bit
5 the same in `v` as in the control register, `pio_write(2, v)` that takes bit
6 from 0 to 1 issues exactly one call, `ide_read16` with selector
`(v & 7) + (2 if bit 4 of v)`, and stores the low byte of the 16-bit result in
`pioreg[0]` and the high byte in `pioreg[1]`, which `pio_read(0)` and
`pio_read(1)` return; a write that takes bit 6 from 1 to 0 or leaves it
unchanged issues no call and leaves both data registers as they were. -/
theorem read_strobe_rising_edge (env : Rbcv2.Env) (s : Rbcv2.State) (v : Nat)
    (hide : s.ide0 = true) (hrst : v &&& 0x80 = 0)
    (hw : v &&& 0x20 = s.pioreg 2 &&& 0x20) :
    ((s.pioreg 2 &&& 0x40 = 0 ∧ v &&& 0x40 ≠ 0) →
      (Rbcv2.pio_write env s 2 v).calls
        = s.calls ++ [Rbcv2.Call.ide_read16 ((v &&& 7) + (if v &&& 0x10 ≠ 0 then 2 else 0))]
      ∧ Rbcv2.pio_read (Rbcv2.pio_write env s 2 v) 0
        = (env.ide_read16 s.calls ((v &&& 7) + (if v &&& 0x10 ≠ 0 then 2 else 0)) % 65536) % 256
      ∧ Rbcv2.pio_read (Rbcv2.pio_write env s 2 v) 1
        = ((env.ide_read16 s.calls ((v &&& 7) + (if v &&& 0x10 ≠ 0 then 2 else 0)) % 65536)
            >>> 8) % 256)
    ∧ (¬ (s.pioreg 2 &&& 0x40 = 0 ∧ v &&& 0x40 ≠ 0) →
      (Rbcv2.pio_write env s 2 v).calls = s.calls
      ∧ Rbcv2.pio_read (Rbcv2.pio_write env s 2 v) 0 = Rbcv2.pio_read s 0
      ∧ Rbcv2.pio_read (Rbcv2.pio_write env s 2 v) 1 = Rbcv2.pio_read s 1) := by
  have hF : ¬ (s.pioreg 2 &&& 0x20 ≠ 0 ∧ v &&& 0x20 = 0) := by
    rintro ⟨a, b⟩
    exact a (hw.symm.trans b)
  rw [Rbcv2.pio_write_ctrl env s v hide hrst, if_neg hF]
  refine ⟨fun hR => ?_, fun hR => ?_⟩
  · rw [if_pos hR]
    exact ⟨rfl, rfl, rfl⟩
  · rw [if_neg hR]
    exact ⟨rfl, rfl, rfl⟩

/-- C14 at a concrete input: the device answers `0xBEEF`; with the control
register at `0x03`, writing `0x53` (bit 6 rises, bit 4 set, address 3) issues
`ide_read16(5)` and leaves `0xEF` in `pioreg[0]` and `0xBE` in `pioreg[1]`. -/
theorem read_strobe_rising_edge_witness :
    (Rbcv2.pio_write Rbcv2.env_beef
      (Rbcv2.pio_write Rbcv2.env_beef Rbcv2.ide_attached 2 0x03) 2 0x53).calls
      = [Rbcv2.Call.ide_read16 5]
    ∧ Rbcv2.pio_read (Rbcv2.pio_write Rbcv2.env_beef
        (Rbcv2.pio_write Rbcv2.env_beef Rbcv2.ide_attached 2 0x03) 2 0x53) 0 = 0xEF
    ∧ Rbcv2.pio_read (Rbcv2.pio_write Rbcv2.env_beef
        (Rbcv2.pio_write Rbcv2.env_beef Rbcv2.ide_attached 2 0x03) 2 0x53) 1 = 0xBE :=
  have h := (read_strobe_rising_edge Rbcv2.env_beef
      (Rbcv2.pio_write Rbcv2.env_beef Rbcv2.ide_attached 2 0x03) 0x53
      (by decide) (by decide) (by decide)).1 (by decide)
  ⟨h.1.trans (by decide), h.2.1.trans (by decide), h.2.2.trans (by decide)⟩

theorem upd_self (f : Nat → Nat) (i : Nat) : upd f i (f i) = f := by
  funext j
  unfold upd
  split_ifs with h
  · rw [h]
  · rfl

theorem Rbcv2.pio_write_ctrl_reg (env : Rbcv2.Env) (s : Rbcv2.State) (v : Nat) :
    (Rbcv2.pio_write env s 2 v).pioreg 2 = v := by
  unfold Rbcv2.pio_write
  simp only [Rbcv2.emit]
  rw [if_neg (by decide), if_pos trivial]
  split_ifs <;> simp [upd]

theorem Rbcv2.pio_write_detached (env : Rbcv2.Env) (s : Rbcv2.State) (v : Nat)
    (hide : s.ide0 = false) :
    Rbcv2.pio_write env s 2 v = { s with pioreg := upd s.pioreg 2 v } := by
  unfold Rbcv2.pio_write
  simp only [Rbcv2.emit]
  rw [if_neg (by decide), if_pos trivial, hide]
  simp

theorem Rbcv2.pio_write_reset (env : Rbcv2.Env) (s : Rbcv2.State) (v : Nat)
    (hide : s.ide0 = true) (hrst : v &&& 0x80 ≠ 0) :
    Rbcv2.pio_write env s 2 v
      = { s with pioreg := upd s.pioreg 2 v, calls := s.calls ++ [Rbcv2.Call.ide_reset_begin] } := by
  unfold Rbcv2.pio_write
  simp only [Rbcv2.emit]
  rw [if_neg (by decide), if_pos trivial, hide]
  simp only [Bool.not_true, Bool.false_eq_true, if_false]
  rw [if_pos hrst]

theorem Rbcv2.pio_write_other_calls (env : Rbcv2.Env) (s : Rbcv2.State) (a v : Nat)
    (ha : a ≠ 2) : (Rbcv2.pio_write env s a v).calls = s.calls := by
  unfold Rbcv2.pio_write
  simp only [Rbcv2.emit]
  rw [if_neg ha]
  split_ifs <;> rfl

theorem Rbcv2.pio_write_same (env : Rbcv2.Env) (s : Rbcv2.State) (v : Nat)
    (h : s.pioreg 2 = v) :
    (Rbcv2.pio_write env s 2 v).pioreg = s.pioreg
    ∧ Rbcv2.reads16 (Rbcv2.pio_write env s 2 v).calls = Rbcv2.reads16 s.calls
    ∧ Rbcv2.writes16 (Rbcv2.pio_write env s 2 v).calls = Rbcv2.writes16 s.calls := by
  have hu : upd s.pioreg 2 v = s.pioreg := by
    rw [← h]
    exact upd_self _ _
  cases hide : s.ide0 with
  | false =>
    rw [Rbcv2.pio_write_detached env s v hide]
    exact ⟨hu, rfl, rfl⟩
  | true =>
    by_cases hrst : v &&& 0x80 = 0
    · have hF : ¬ (s.pioreg 2 &&& 0x20 ≠ 0 ∧ v &&& 0x20 = 0) := by
        rw [h]
        exact fun c => c.1 c.2
      have hR : ¬ (s.pioreg 2 &&& 0x40 = 0 ∧ v &&& 0x40 ≠ 0) := by
        rw [h]
        exact fun c => c.2 c.1
      rw [Rbcv2.pio_write_ctrl env s v hide hrst, if_neg hF, if_neg hR]
      exact ⟨hu, rfl, rfl⟩
    · rw [Rbcv2.pio_write_reset env s v hide hrst]
      refine ⟨hu, ?_, ?_⟩ <;>
        simp [Rbcv2.reads16, Rbcv2.writes16, Rbcv2.is_read16, Rbcv2.is_write16,
          List.countP_append]

theorem Rbcv2.pio_ctrl_writes_same (env : Rbcv2.Env) (v n : Nat) (s : Rbcv2.State)
    (h : s.pioreg 2 = v) :
    (Rbcv2.pio_ctrl_writes env s v n).pioreg = s.pioreg
    ∧ Rbcv2.reads16 (Rbcv2.pio_ctrl_writes env s v n).calls = Rbcv2.reads16 s.calls
    ∧ Rbcv2.writes16 (Rbcv2.pio_ctrl_writes env s v n).calls = Rbcv2.writes16 s.calls := by
  induction n generalizing s with
  | zero => exact ⟨rfl, rfl, rfl⟩
  | succ n ih =>
    have h1 := Rbcv2.pio_write_same env s v h
    have h2 := ih (Rbcv2.pio_write env s 2 v) (Rbcv2.pio_write_ctrl_reg env s v)
    unfold Rbcv2.pio_ctrl_writes
    exact ⟨h2.1.trans h1.1, h2.2.1.trans h1.2.1, h2.2.2.trans h1.2.2⟩

theorem Rbcv2.pio_write_transfers (env : Rbcv2.Env) (s : Rbcv2.State) (v : Nat) :
    Rbcv2.transfers (Rbcv2.pio_write env s 2 v).calls
      = Rbcv2.transfers s.calls
        + (if s.ide0 = true ∧ v &&& 0x80 = 0
            ∧ ((s.pioreg 2 &&& 0x20 ≠ 0 ∧ v &&& 0x20 = 0)
              ∨ (s.pioreg 2 &&& 0x40 = 0 ∧ v &&& 0x40 ≠ 0)) then 1 else 0) := by
  cases hide : s.ide0 with
  | false =>
    rw [Rbcv2.pio_write_detached env s v hide]
    simp
  | true =>
    by_cases hrst : v &&& 0x80 = 0
    · rw [Rbcv2.pio_write_ctrl env s v hide hrst]
      by_cases hF : s.pioreg 2 &&& 0x20 ≠ 0 ∧ v &&& 0x20 = 0
      · rw [if_pos hF, if_pos ⟨rfl, hrst, Or.inl hF⟩]
        simp [Rbcv2.transfers, Rbcv2.reads16, Rbcv2.writes16, Rbcv2.is_read16,
          Rbcv2.is_write16, Rbcv2.emit, List.countP_append]
        omega
      · rw [if_neg hF]
        by_cases hR : s.pioreg 2 &&& 0x40 = 0 ∧ v &&& 0x40 ≠ 0
        · rw [if_pos hR, if_pos ⟨rfl, hrst, Or.inr hR⟩]
          simp [Rbcv2.transfers, Rbcv2.reads16, Rbcv2.writes16, Rbcv2.is_read16,
            Rbcv2.is_write16, List.countP_append]
          omega
        · rw [if_neg hR, if_neg (fun c => c.2.2.elim hF hR)]
          rfl
    · rw [Rbcv2.pio_write_reset env s v hide hrst, if_neg (fun c => hrst c.2.1)]
      simp [Rbcv2.transfers, Rbcv2.reads16, Rbcv2.writes16, Rbcv2.is_read16,
        Rbcv2.is_write16, List.countP_append]

/-- C15, the claim as written fails in its last part: three consecutive
`pio_write(2, v)` whose first carries a strobe edge can cause no transfer at
all.  With a device attached and the control register at 0, `v = 0x20` (write
strobe rises) and `v = 0xC0` (read strobe rises, reset bit set) each give zero
transfers; with no device attached, `v = 0x40` (read strobe rises) gives zero
transfers too. -/
theorem strobe_edge_without_transfer :
    Rbcv2.transfers (Rbcv2.pio_ctrl_writes Rbcv2.env_zero Rbcv2.ide_attached 0x20 3).calls = 0
    ∧ Rbcv2.transfers (Rbcv2.pio_ctrl_writes Rbcv2.env_zero Rbcv2.ide_attached 0xC0 3).calls = 0
    ∧ Rbcv2.transfers (Rbcv2.pio_ctrl_writes Rbcv2.env_zero Rbcv2.zero 0x40 3).calls = 0 := by
  decide

/-- C15, amended: for every prior state and every value `v`, after one
`pio_write(2, v)` any number `n` of further `pio_write(2, v)` issue no
`ide_read16` and no `ide_write16` and leave every shadow register unchanged;
hence `n + 1` consecutive control writes of `v` cause at most one device
transfer in total, and exactly one precisely when a device is attached, bit 7
of `v` is clear and the first write takes bit 5 from 1 to 0 or bit 6 from 0 to
1. -/
theorem same_value_writes_one_transfer (env : Rbcv2.Env) (s : Rbcv2.State) (v n : Nat) :
    (Rbcv2.pio_ctrl_writes env (Rbcv2.pio_write env s 2 v) v n).pioreg
        = (Rbcv2.pio_write env s 2 v).pioreg
    ∧ Rbcv2.reads16 (Rbcv2.pio_ctrl_writes env (Rbcv2.pio_write env s 2 v) v n).calls
        = Rbcv2.reads16 (Rbcv2.pio_write env s 2 v).calls
    ∧ Rbcv2.writes16 (Rbcv2.pio_ctrl_writes env (Rbcv2.pio_write env s 2 v) v n).calls
        = Rbcv2.writes16 (Rbcv2.pio_write env s 2 v).calls
    ∧ Rbcv2.transfers (Rbcv2.pio_ctrl_writes env s v (n + 1)).calls
        ≤ Rbcv2.transfers s.calls + 1
    ∧ (Rbcv2.transfers (Rbcv2.pio_ctrl_writes env s v (n + 1)).calls
        = Rbcv2.transfers s.calls + 1
      ↔ (s.ide0 = true ∧ v &&& 0x80 = 0
          ∧ ((s.pioreg 2 &&& 0x20 ≠ 0 ∧ v &&& 0x20 = 0)
            ∨ (s.pioreg 2 &&& 0x40 = 0 ∧ v &&& 0x40 ≠ 0)))) := by
  have h := Rbcv2.pio_ctrl_writes_same env v n (Rbcv2.pio_write env s 2 v)
    (Rbcv2.pio_write_ctrl_reg env s v)
  have ht := Rbcv2.pio_write_transfers env s v
  have e : Rbcv2.transfers (Rbcv2.pio_ctrl_writes env s v (n + 1)).calls
      = Rbcv2.transfers (Rbcv2.pio_write env s 2 v).calls := by
    show Rbcv2.transfers (Rbcv2.pio_ctrl_writes env (Rbcv2.pio_write env s 2 v) v n).calls = _
    unfold Rbcv2.transfers
    rw [h.2.1, h.2.2]
  refine ⟨h.1, h.2.1, h.2.2, ?_, ?_⟩
  · rw [e, ht]
    split_ifs <;> omega
  · rw [e, ht]
    split_ifs with c
    · exact ⟨fun _ => c, fun _ => rfl⟩
    · exact ⟨fun x => absurd x (by omega), fun x => absurd x c⟩

/-- C16: with a device attached, `pio_write(2, v)` with bit 7 set in `v` issues
exactly one call, `ide_reset_begin`, hence no `ide_read16` and no
`ide_write16`, whatever the other bits of `v` and the previous control value;
and a `pio_write(a, w)` that issues a register transfer has `a = 2` and bit 7
of `w` clear. -/
theorem reset_bit_blocks_transfer (env : Rbcv2.Env) (s : Rbcv2.State) (v : Nat)
    (hide : s.ide0 = true) :
    (v &&& 0x80 ≠ 0 →
      (Rbcv2.pio_write env s 2 v).calls = s.calls ++ [Rbcv2.Call.ide_reset_begin]
      ∧ Rbcv2.reads16 (Rbcv2.pio_write env s 2 v).calls = Rbcv2.reads16 s.calls
      ∧ Rbcv2.writes16 (Rbcv2.pio_write env s 2 v).calls = Rbcv2.writes16 s.calls)
    ∧ (∀ a w : Nat,
        Rbcv2.transfers (Rbcv2.pio_write env s a w).calls ≠ Rbcv2.transfers s.calls →
        a = 2 ∧ w &&& 0x80 = 0) := by
  refine ⟨fun hrst => ?_, fun a w hne => ?_⟩
  · rw [Rbcv2.pio_write_reset env s v hide hrst]
    refine ⟨rfl, ?_, ?_⟩ <;>
      simp [Rbcv2.reads16, Rbcv2.writes16, Rbcv2.is_read16, Rbcv2.is_write16,
        List.countP_append]
  · by_cases ha : a = 2
    · subst ha
      refine ⟨rfl, ?_⟩
      by_contra hrst
      apply hne
      rw [Rbcv2.pio_write_transfers, if_neg (fun c => hrst c.2.1)]
      rfl
    · exact absurd (by rw [Rbcv2.pio_write_other_calls env s a w ha]) hne

/-- C16 at a concrete input: with a device attached and the control register
at 0, writing `0xE0` (reset bit with both strobes) issues `ide_reset_begin`
alone, and the transfer issued by writing `0x40` has bit 7 clear. -/
theorem reset_bit_blocks_transfer_witness :
    (Rbcv2.pio_write Rbcv2.env_zero Rbcv2.ide_attached 2 0xE0).calls
      = [Rbcv2.Call.ide_reset_begin]
    ∧ (2 = 2 ∧ 0x40 &&& 0x80 = 0) :=
  ⟨((reset_bit_blocks_transfer Rbcv2.env_zero Rbcv2.ide_attached 0xE0 rfl).1 (by decide)).1,
   (reset_bit_blocks_transfer Rbcv2.env_zero Rbcv2.ide_attached 0xE0 rfl).2 2 0x40 (by decide)⟩

/-! ## rbcv2: the UART -/

theorem Rbcv2.uart_recalc_iir_uart (s : Rbcv2.State) (u : Nat) :
    (Rbcv2.uart_recalc_iir s u).uart
      = fun j => if j = u then
          { s.uart u with
            iir := if (s.uart u).irq &&& Rbcv2.RXDA ≠ 0 then 0x04
                   else if (s.uart u).irq &&& Rbcv2.TEMT ≠ 0 then 0x02
                   else if (s.uart u).irq &&& Rbcv2.MODEM ≠ 0 then 0x00 else 0x01,
            irqline := if (s.uart u).irq &&& Rbcv2.RXDA ≠ 0 ∨ (s.uart u).irq &&& Rbcv2.TEMT ≠ 0
                          ∨ (s.uart u).irq &&& Rbcv2.MODEM ≠ 0 then
                         (if (s.uart u).irqline ≠ 0 then (s.uart u).irqline else (s.uart u).irq)
                       else 0 }
        else s.uart j := by
  funext j
  unfold Rbcv2.uart_recalc_iir Rbcv2.uart_waggle
  simp only [Rbcv2.setUart, Rbcv2.emit, if_true]
  by_cases h1 : (s.uart u).irq &&& Rbcv2.RXDA ≠ 0
  · by_cases hl : (s.uart u).irqline ≠ 0 <;> by_cases hj : j = u <;> simp [h1, hl, hj]
  · by_cases h2 : (s.uart u).irq &&& Rbcv2.TEMT ≠ 0
    · by_cases hl : (s.uart u).irqline ≠ 0 <;> by_cases hj : j = u <;> simp [h1, h2, hl, hj]
    · by_cases h3 : (s.uart u).irq &&& Rbcv2.MODEM ≠ 0
      · by_cases hl : (s.uart u).irqline ≠ 0 <;> by_cases hj : j = u <;>
          simp [h1, h2, h3, hl, hj]
      · by_cases hj : j = u <;> simp [h1, h2, h3, hj]

theorem Rbcv2.uart_clear_interrupt_frame (s : Rbcv2.State) (u n j : Nat) :
    Rbcv2.uart_regs ((Rbcv2.uart_clear_interrupt s u n).uart j) = Rbcv2.uart_regs (s.uart j)
    ∧ ((Rbcv2.uart_clear_interrupt s u n).uart j).msr = (s.uart j).msr
    ∧ (j ≠ u → (Rbcv2.uart_clear_interrupt s u n).uart j = s.uart j)
    ∧ ((Rbcv2.uart_clear_interrupt s u n).uart j).irq
        = if j = u ∧ (s.uart u).irq &&& n ≠ 0 then (s.uart u).irq &&& not8 n
          else (s.uart j).irq := by
  unfold Rbcv2.uart_clear_interrupt
  simp only []
  by_cases h : (s.uart u).irq &&& n = 0
  · rw [if_pos h]
    simp [h]
  · rw [if_neg h, Rbcv2.uart_recalc_iir_uart]
    by_cases hj : j = u <;> simp [Rbcv2.setUart, Rbcv2.uart_regs, hj, h]

theorem and_not8_MODEM (x : Nat) :
    (x &&& not8 Rbcv2.MODEM) &&& Rbcv2.MODEM = 0
    ∧ (x &&& not8 Rbcv2.MODEM) &&& Rbcv2.RXDA = x &&& Rbcv2.RXDA
    ∧ (x &&& not8 Rbcv2.MODEM) &&& Rbcv2.TEMT = x &&& Rbcv2.TEMT := by
  have e1 : not8 Rbcv2.MODEM &&& Rbcv2.MODEM = 0 := by decide
  have e2 : not8 Rbcv2.MODEM &&& Rbcv2.RXDA = Rbcv2.RXDA := by decide
  have e3 : not8 Rbcv2.MODEM &&& Rbcv2.TEMT = Rbcv2.TEMT := by decide
  refine ⟨?_, ?_, ?_⟩
  · rw [Nat.and_assoc, e1, Nat.and_zero]
  · rw [Nat.and_assoc, e2]
  · rw [Nat.and_assoc, e3]

theorem and_F0_split (m : Nat) :
    (m &&& 0xF0) &&& 0x0F = 0 ∧ (m &&& 0xF0) &&& 0xF0 = m &&& 0xF0 := by
  have e1 : (0xF0 : Nat) &&& 0x0F = 0 := by decide
  have e2 : (0xF0 : Nat) &&& 0xF0 = 0xF0 := by decide
  refine ⟨?_, ?_⟩
  · rw [Nat.and_assoc, e1, Nat.and_zero]
  · rw [Nat.and_assoc, e2]

/-- C17: `uart_read` at offset 6 returns the modem-status value `m` held before
the read and leaves `m & 0xF0` stored: the four low bits are zero and the four
high bits are those of `m`.  The registers of that UART other than MSR and the
pending-interrupt state (`irq`, `iir`, `irqline`) are unchanged, every other
UART is unchanged, and in `irq` the MODEM source is clear afterwards while the
RXDA and TEMT sources are as before. -/
theorem msr_read_clears_delta (s : Rbcv2.State) (u r : Nat) (k : Option Nat) :
    (Rbcv2.uart_read s u 6 r k).1 = (s.uart u).msr
    ∧ ((Rbcv2.uart_read s u 6 r k).2.uart u).msr = (s.uart u).msr &&& 0xF0
    ∧ ((Rbcv2.uart_read s u 6 r k).2.uart u).msr &&& 0x0F = 0
    ∧ ((Rbcv2.uart_read s u 6 r k).2.uart u).msr &&& 0xF0 = (s.uart u).msr &&& 0xF0
    ∧ Rbcv2.uart_regs ((Rbcv2.uart_read s u 6 r k).2.uart u) = Rbcv2.uart_regs (s.uart u)
    ∧ (∀ j, j ≠ u → (Rbcv2.uart_read s u 6 r k).2.uart j = s.uart j)
    ∧ ((Rbcv2.uart_read s u 6 r k).2.uart u).irq &&& Rbcv2.MODEM = 0
    ∧ ((Rbcv2.uart_read s u 6 r k).2.uart u).irq &&& Rbcv2.RXDA
        = (s.uart u).irq &&& Rbcv2.RXDA
    ∧ ((Rbcv2.uart_read s u 6 r k).2.uart u).irq &&& Rbcv2.TEMT
        = (s.uart u).irq &&& Rbcv2.TEMT := by
  have e : Rbcv2.uart_read s u 6 r k
      = ((s.uart u).msr,
         Rbcv2.uart_clear_interrupt
           (Rbcv2.setUart s u { s.uart u with msr := (s.uart u).msr &&& 0xF0 }) u Rbcv2.MODEM) :=
    rfl
  have hf := Rbcv2.uart_clear_interrupt_frame
    (Rbcv2.setUart s u { s.uart u with msr := (s.uart u).msr &&& 0xF0 }) u Rbcv2.MODEM
  have hu : (Rbcv2.setUart s u { s.uart u with msr := (s.uart u).msr &&& 0xF0 }).uart u
      = { s.uart u with msr := (s.uart u).msr &&& 0xF0 } := by
    simp [Rbcv2.setUart]
  have hm : ((Rbcv2.uart_read s u 6 r k).2.uart u).msr = (s.uart u).msr &&& 0xF0 := by
    rw [e]
    show ((Rbcv2.uart_clear_interrupt _ u Rbcv2.MODEM).uart u).msr = _
    rw [(hf u).2.1, hu]
  have hq : ((Rbcv2.uart_read s u 6 r k).2.uart u).irq
      = if (s.uart u).irq &&& Rbcv2.MODEM ≠ 0 then (s.uart u).irq &&& not8 Rbcv2.MODEM
        else (s.uart u).irq := by
    rw [e]
    show ((Rbcv2.uart_clear_interrupt _ u Rbcv2.MODEM).uart u).irq = _
    rw [(hf u).2.2.2, hu]
    simp
  refine ⟨rfl, hm, ?_, ?_, ?_, ?_, ?_, ?_, ?_⟩
  · rw [hm]; exact (and_F0_split _).1
  · rw [hm]; exact (and_F0_split _).2
  · rw [e]
    show Rbcv2.uart_regs ((Rbcv2.uart_clear_interrupt _ u Rbcv2.MODEM).uart u) = _
    rw [(hf u).1, hu]
    rfl
  · intro j hj
    rw [e]
    show (Rbcv2.uart_clear_interrupt _ u Rbcv2.MODEM).uart j = _
    rw [(hf j).2.2.1 hj]
    simp [Rbcv2.setUart, hj]
  · rw [hq]
    split_ifs with h
    · exact (and_not8_MODEM _).1
    · exact not_not.mp h
  · rw [hq]
    split_ifs with h
    · exact (and_not8_MODEM _).2.1
    · rfl
  · rw [hq]
    split_ifs with h
    · exact (and_not8_MODEM _).2.2
    · rfl

/-- Every result of `check_chario` has bit 1 set and is 2 or 3. -/
theorem Rbcv2.check_chario_out (b : Bool) :
    Rbcv2.check_chario b &&& 2 ≠ 0
    ∧ (Rbcv2.check_chario b = 2 ∨ Rbcv2.check_chario b = 3) := by
  cases b <;> decide

/-- C18, the claim as written fails: at startup the stored LSR of `uart[0]` is
0 and no PropIO is attached; a read of offset 5 while no input is waiting
(`check_chario` gives 2) returns `0x60` and leaves `0x60` stored, so the high
four bits after the read are not those of the prior value. -/
theorem lsr_read_sets_tx_bits :
    Rbcv2.startup.propio = false
    ∧ (Rbcv2.startup.uart 0).lsr = 0
    ∧ Rbcv2.check_chario false = 2
    ∧ (Rbcv2.uart_read Rbcv2.startup 0 5 (Rbcv2.check_chario false) none).1 = 0x60
    ∧ ((Rbcv2.uart_read Rbcv2.startup 0 5 (Rbcv2.check_chario false) none).2.uart 0).lsr
        = 0x60
    ∧ ((Rbcv2.uart_read Rbcv2.startup 0 5 (Rbcv2.check_chario false) none).2.uart 0).lsr
        &&& 0xF0 ≠ (Rbcv2.startup.uart 0).lsr &&& 0xF0 := by
  decide

/-- C18, amended: with no PropIO attached, `uart_read` at offset 5 discards the
stored LSR and rebuilds it from the readiness result `r` of `check_chario`.
When `r` reports output ready (bit 1, which every result of `check_chario`
has set), the value returned is `0x60` combined with `0x01` when input is
ready (bit 0 of `r`), and the LSR stored afterwards is that value with its low
four bits cleared, `0x60`, whatever LSR value was stored before; nothing else
in the machine changes. -/
theorem lsr_read_rebuilds (s : Rbcv2.State) (u r : Nat) (k : Option Nat)
    (hp : s.propio = false) (hr : r &&& 2 ≠ 0) :
    (Rbcv2.uart_read s u 5 r k).1 = (if r &&& 1 ≠ 0 then 0x01 else 0) ||| 0x60
    ∧ ((Rbcv2.uart_read s u 5 r k).2.uart u).lsr = (Rbcv2.uart_read s u 5 r k).1 &&& 0xF0
    ∧ ((Rbcv2.uart_read s u 5 r k).2.uart u).lsr = 0x60
    ∧ ((Rbcv2.uart_read s u 5 r k).2.uart u).lsr &&& 0x0F = 0
    ∧ (Rbcv2.uart_read s u 5 r k).2 = Rbcv2.setUart s u { s.uart u with lsr := 0x60 }
    ∧ (∀ b : Bool, Rbcv2.check_chario b &&& 2 ≠ 0) := by
  have e : Rbcv2.uart_read s u 5 r k
      = ((if r &&& 1 ≠ 0 then 0x01 else 0) ||| 0x60,
         Rbcv2.setUart s u { s.uart u with lsr := 0x60 }) := by
    unfold Rbcv2.uart_read
    simp only [hp]
    by_cases h1 : r &&& 1 ≠ 0 <;>
      simp [h1, hr, -Nat.and_one_is_mod] <;> rfl
  rw [e]
  refine ⟨rfl, ?_, ?_, ?_, rfl, fun b => (Rbcv2.check_chario_out b).1⟩
  · by_cases h1 : r &&& 1 ≠ 0 <;>
      simp [Rbcv2.setUart, h1, -Nat.and_one_is_mod] <;> rfl
  · simp [Rbcv2.setUart]
  · simp [Rbcv2.setUart]
    rfl

/-- C18, amended, at a concrete input: with `0x60` stored and input waiting
(`check_chario` gives 3), the read returns `0x61` and leaves `0x60` stored. -/
theorem lsr_read_rebuilds_witness :
    (Rbcv2.uart_read Rbcv2.tx_idle 0 5 (Rbcv2.check_chario true) none).1 = 0x61
    ∧ ((Rbcv2.uart_read Rbcv2.tx_idle 0 5 (Rbcv2.check_chario true) none).2.uart 0).lsr
        = 0x60 :=
  ⟨(lsr_read_rebuilds Rbcv2.tx_idle 0 (Rbcv2.check_chario true) none rfl (by decide)).1.trans
      (by decide),
   (lsr_read_rebuilds Rbcv2.tx_idle 0 (Rbcv2.check_chario true) none rfl (by decide)).2.2.1⟩

/-- C19: after `uart_recalc_iir` the IIR holds `0x04` if the RXDA source is
pending, otherwise `0x02` if TEMT is pending, otherwise `0x00` if MODEM is
pending, otherwise `0x01`; when no source is pending `irqline` is 0, and when
one is, `irqline` keeps a non-zero value or else takes the pending mask.  A
read of offset 2 returns that IIR value and changes nothing. -/
theorem iir_priority (s : Rbcv2.State) (u r : Nat) (k : Option Nat) :
    ((Rbcv2.uart_recalc_iir s u).uart u).iir
        = (if (s.uart u).irq &&& Rbcv2.RXDA ≠ 0 then 0x04
           else if (s.uart u).irq &&& Rbcv2.TEMT ≠ 0 then 0x02
           else if (s.uart u).irq &&& Rbcv2.MODEM ≠ 0 then 0x00 else 0x01)
    ∧ ((Rbcv2.uart_recalc_iir s u).uart u).irqline
        = (if (s.uart u).irq &&& Rbcv2.RXDA ≠ 0 ∨ (s.uart u).irq &&& Rbcv2.TEMT ≠ 0
              ∨ (s.uart u).irq &&& Rbcv2.MODEM ≠ 0 then
             (if (s.uart u).irqline ≠ 0 then (s.uart u).irqline else (s.uart u).irq)
           else 0)
    ∧ ((Rbcv2.uart_recalc_iir s u).uart u).irq = (s.uart u).irq
    ∧ (Rbcv2.uart_read (Rbcv2.uart_recalc_iir s u) u 2 r k).1
        = ((Rbcv2.uart_recalc_iir s u).uart u).iir
    ∧ (Rbcv2.uart_read (Rbcv2.uart_recalc_iir s u) u 2 r k).2 = Rbcv2.uart_recalc_iir s u := by
  have h := congrFun (Rbcv2.uart_recalc_iir_uart s u) u
  rw [if_pos rfl] at h
  exact ⟨by rw [h], by rw [h], by rw [h], rfl, rfl⟩

/-- C20: at startup no interrupt source of `uart[0]` is pending, yet a read of
offset 2 returns `0x00`, the value `uart_recalc_iir` uses for a pending MODEM
source; `uart_init` leaves the zero-initialised IIR as it is.  The value stays
`0x00` across register writes and reads that raise no interrupt, and becomes
`0x01` only once `uart_recalc_iir` has run. -/
theorem iir_at_startup_reads_zero :
    (Rbcv2.startup.uart 0).irq = 0
    ∧ (Rbcv2.uart_read Rbcv2.startup 0 2 2 none).1 = 0x00
    ∧ ((Rbcv2.uart_read (Rbcv2.uart_write Rbcv2.startup 0 7 0x55) 0 6 2 none).2.uart 0).irq = 0
    ∧ (Rbcv2.uart_read
        (Rbcv2.uart_read (Rbcv2.uart_write Rbcv2.startup 0 7 0x55) 0 6 2 none).2 0 2 2 none).1
        = 0x00
    ∧ (Rbcv2.uart_read (Rbcv2.uart_recalc_iir Rbcv2.startup 0) 0 2 2 none).1 = 0x01 := by
  decide

/-! ## rbcv2: the UART event tick -/

theorem Rbcv2.uart_interrupt_frame (s : Rbcv2.State) (u n j : Nat) :
    Rbcv2.uart_regs ((Rbcv2.uart_interrupt s u n).uart j) = Rbcv2.uart_regs (s.uart j)
    ∧ ((Rbcv2.uart_interrupt s u n).uart j).msr = (s.uart j).msr
    ∧ (j ≠ u → (Rbcv2.uart_interrupt s u n).uart j = s.uart j)
    ∧ ((Rbcv2.uart_interrupt s u n).uart j).irq
        = if j = u ∧ (s.uart u).irq &&& n = 0 ∧ (s.uart u).ier &&& n ≠ 0 then
            (s.uart u).irq ||| n
          else (s.uart j).irq := by
  unfold Rbcv2.uart_interrupt
  simp only []
  by_cases h : (s.uart u).irq &&& n = 0
  · rw [if_neg (not_not.mpr h)]
    by_cases h2 : (s.uart u).ier &&& n = 0
    · rw [if_pos h2]
      simp [h2]
    · rw [if_neg h2, Rbcv2.uart_recalc_iir_uart]
      by_cases hj : j = u <;> simp [Rbcv2.setUart, Rbcv2.uart_regs, hj, h, h2]
  · rw [if_pos h]
    simp [h]

theorem uart_event_dhigh_bit1 (old r : Nat) :
    ((old ^^^ (if r &&& 2 ≠ 0 then (if r &&& 1 ≠ 0 then old ||| 0x01 else old) ||| 0x60
                else (if r &&& 1 ≠ 0 then old ||| 0x01 else old)))
      &&& (if r &&& 2 ≠ 0 then (if r &&& 1 ≠ 0 then old ||| 0x01 else old) ||| 0x60
            else (if r &&& 1 ≠ 0 then old ||| 0x01 else old))) &&& 0x2 = 0 := by
  have b1 : Nat.testBit 0x01 1 = false := by decide
  have b60 : Nat.testBit 0x60 1 = false := by decide
  by_contra h
  have ht := (and_two_pow_ne_zero _ 1).mp h
  rw [Nat.testBit_and, Nat.testBit_xor] at ht
  split_ifs at ht <;>
    (try simp only [Nat.testBit_or, b1, b60, Bool.or_false] at ht) <;>
    cases hb : old.testBit 1 <;> simp [hb] at ht

theorem Rbcv2.uart_interrupt_RXDA_TEMT (s : Rbcv2.State) (u : Nat) :
    ((Rbcv2.uart_interrupt s u Rbcv2.RXDA).uart u).irq &&& Rbcv2.TEMT
      = (s.uart u).irq &&& Rbcv2.TEMT := by
  rw [(Rbcv2.uart_interrupt_frame s u Rbcv2.RXDA u).2.2.2]
  split_ifs
  · rw [Nat.and_distrib_right]
    show (s.uart u).irq &&& Rbcv2.TEMT ||| 0 = _
    rw [Nat.or_zero]
  · rfl

/-- Whatever the host readiness, the stored LSR and the IER, `uart_event`
leaves the TEMT bit of the pending mask as it was: its test `dhigh & 0x2`
never succeeds, since the tick can only newly set LSR bits `0x01` and `0x60`. -/
theorem Rbcv2.uart_event_TEMT (s : Rbcv2.State) (u r : Nat) :
    ((Rbcv2.uart_event s u r).uart u).irq &&& Rbcv2.TEMT = (s.uart u).irq &&& Rbcv2.TEMT := by
  have hd := uart_event_dhigh_bit1 (s.uart u).lsr r
  unfold Rbcv2.uart_event
  simp only []
  rw [if_neg (not_not.mpr hd)]
  split_ifs <;> (try rw [Rbcv2.uart_interrupt_RXDA_TEMT]) <;> simp [Rbcv2.setUart]

/-- C21: on the machine whose `uart[0]` has the receive and transmit sources
enabled (IER = `0x03`), a stored LSR of 0 and nothing pending, a `uart_event`
tick with the host ready for output sets the LSR bits `0x60` but leaves the
TEMT source not pending, and a read of offset 2 does not return `0x02`; the
test in `uart_event` is `dhigh & 0x2`, a bit the tick never sets.  The receive
half does work: a tick with the host ready for input makes RXDA pending and
the IIR read `0x04`. -/
theorem tx_ready_tick_leaves_TEMT_clear :
    (Rbcv2.tx_irq_enabled.uart 0).ier &&& Rbcv2.TEMT ≠ 0
    ∧ (Rbcv2.tx_irq_enabled.uart 0).lsr &&& 0x60 = 0
    ∧ (Rbcv2.tx_irq_enabled.uart 0).irq &&& Rbcv2.TEMT = 0
    ∧ ((Rbcv2.uart_event Rbcv2.tx_irq_enabled 0 2).uart 0).lsr = 0x60
    ∧ ((Rbcv2.uart_event Rbcv2.tx_irq_enabled 0 2).uart 0).irq &&& Rbcv2.TEMT = 0
    ∧ (Rbcv2.uart_read (Rbcv2.uart_event Rbcv2.tx_irq_enabled 0 2) 0 2 2 none).1 ≠ 0x02
    ∧ ((Rbcv2.uart_event Rbcv2.tx_irq_enabled 0 3).uart 0).irq &&& Rbcv2.RXDA ≠ 0
    ∧ (Rbcv2.uart_read (Rbcv2.uart_event Rbcv2.tx_irq_enabled 0 3) 0 2 2 none).1 = 0x04 := by
  decide

/-! ## Port dispatch -/

theorem and_FF_idem (a : Nat) : (a &&& 0xFF) &&& 0xFF = a &&& 0xFF := by
  rw [Nat.and_assoc]
  rfl

/-- C22: for a port whose low 8 bits `a` lie in no device range of the
dispatcher, `io_read` returns `0xFF` and the state unchanged and `io_write`
returns the state unchanged.  lottery: `a` outside `0x14-0x17` and `0x60-0x63`.
rbcv2 reads: `a` outside `0x60-0x77` and `0xC0-0xDF`, outside `0x28-0x2C` when
`wiznet` is set, outside `0xA0-0xA7` when `ramf` is set and outside `0xA8-0xAF`
when PropIO is attached.  rbcv2 writes: moreover `a` outside the bank ports
`0x78-0x79` and `0x7C-0x7F` and other than `0xFD`.  Two port arguments with
the same low 8 bits give the same result in all four functions. -/
theorem unmapped_ports_inert (l : Lottery.State) (s : Rbcv2.State) (env : Rbcv2.Env)
    (addr v r x : Nat) (k : Option Nat) :
    (¬ (0x14 ≤ addr &&& 0xFF ∧ addr &&& 0xFF ≤ 0x17) →
      ¬ (0x60 ≤ addr &&& 0xFF ∧ addr &&& 0xFF ≤ 0x63) →
      Lottery.io_read l addr = (0xFF, l) ∧ Lottery.io_write l addr v = l)
    ∧ (¬ (0x60 ≤ addr &&& 0xFF ∧ addr &&& 0xFF ≤ 0x77) →
      ¬ (0xC0 ≤ addr &&& 0xFF ∧ addr &&& 0xFF ≤ 0xDF) →
      ¬ (s.wiznet ≠ 0 ∧ 0x28 ≤ addr &&& 0xFF ∧ addr &&& 0xFF ≤ 0x2C) →
      ¬ (s.ramf ≠ 0 ∧ 0xA0 ≤ addr &&& 0xFF ∧ addr &&& 0xFF ≤ 0xA7) →
      ¬ (s.propio = true ∧ 0xA8 ≤ addr &&& 0xFF ∧ addr &&& 0xFF ≤ 0xAF) →
      Rbcv2.io_read s addr r k x = (0xFF, s)
      ∧ (¬ (0x78 ≤ addr &&& 0xFF ∧ addr &&& 0xFF ≤ 0x79) →
         ¬ (0x7C ≤ addr &&& 0xFF ∧ addr &&& 0xFF ≤ 0x7F) →
         addr &&& 0xFF ≠ 0xFD →
         Rbcv2.io_write env s addr v = s))
    ∧ (∀ addr2 : Nat, addr2 &&& 0xFF = addr &&& 0xFF →
      Lottery.io_read l addr2 = Lottery.io_read l addr
      ∧ Lottery.io_write l addr2 v = Lottery.io_write l addr v
      ∧ Rbcv2.io_read s addr2 r k x = Rbcv2.io_read s addr r k x
      ∧ Rbcv2.io_write env s addr2 v = Rbcv2.io_write env s addr v) := by
  refine ⟨fun h1 h2 => ?_, fun h1 h2 h3 h4 h5 => ⟨?_, fun h6 h7 h8 => ?_⟩, fun addr2 h => ?_⟩
  · unfold Lottery.io_read Lottery.io_write
    simp only []
    generalize addr &&& 0xFF = a at h1 h2
    refine ⟨?_, ?_⟩ <;> split_ifs <;> first | rfl | (exfalso; omega)
  · unfold Rbcv2.io_read
    simp only []
    generalize addr &&& 0xFF = a at h1 h2 h3 h4 h5
    split_ifs <;> first | rfl | (exfalso; omega)
  · unfold Rbcv2.io_write
    simp only []
    generalize addr &&& 0xFF = a at h1 h2 h3 h4 h5 h6 h7 h8
    split_ifs <;> first | rfl | (exfalso; omega)
  · unfold Lottery.io_read Lottery.io_write Rbcv2.io_read Rbcv2.io_write
    simp only [h]
    exact ⟨trivial, trivial, trivial, trivial⟩

/-- C22 at a concrete input: port `0x127A` (low 8 bits `0x7A`) is in no device
range of either dispatcher; reads return `0xFF` and neither a read nor a write
changes the state. -/
theorem unmapped_ports_inert_witness :
    (Lottery.io_read Lottery.startup 0x127A = (0xFF, Lottery.startup)
      ∧ Lottery.io_write Lottery.startup 0x127A 0x55 = Lottery.startup)
    ∧ Rbcv2.io_read Rbcv2.zero 0x127A 3 none 0 = (0xFF, Rbcv2.zero)
    ∧ Rbcv2.io_write Rbcv2.env_zero Rbcv2.zero 0x127A 0x55 = Rbcv2.zero :=
  ⟨(unmapped_ports_inert Lottery.startup Rbcv2.zero Rbcv2.env_zero 0x127A 0x55 3 0 none).1
      (by decide) (by decide),
   ((unmapped_ports_inert Lottery.startup Rbcv2.zero Rbcv2.env_zero 0x127A 0x55 3 0 none).2.1
      (by decide) (by decide) (by decide) (by decide) (by decide)).1,
   ((unmapped_ports_inert Lottery.startup Rbcv2.zero Rbcv2.env_zero 0x127A 0x55 3 0 none).2.1
      (by decide) (by decide) (by decide) (by decide) (by decide)).2
      (by decide) (by decide) (by decide)⟩

/-! ## lottery: SIO control writes -/

/-- C23, the claim as written fails: on the machine with channel A's receiver
enabled (WR3 = 1) and one byte queued, with the register pointer at 0, the
channel-reset command (control write of `0x18`) sets RR0, RR1, RR2 to their
reset values but leaves WR3 at 1 and the queue occupancy at 1, whereas at
startup both are 0. -/
theorem channel_reset_keeps_wr_and_queue :
    (Lottery.rx_one_queued.sio 0).wr 0 &&& 7 = 0
    ∧ ((Lottery.sio2_write Lottery.rx_one_queued 1 0x18).sio 0).rr 0 = 0x2C
    ∧ ((Lottery.sio2_write Lottery.rx_one_queued 1 0x18).sio 0).rr 1 = 0x01
    ∧ ((Lottery.sio2_write Lottery.rx_one_queued 1 0x18).sio 0).rr 2 = 0
    ∧ ((Lottery.sio2_write Lottery.rx_one_queued 1 0x18).sio 0).wr 3 = 1
    ∧ ((Lottery.sio2_write Lottery.rx_one_queued 1 0x18).sio 0).dptr = 1
    ∧ (Lottery.startup.sio 0).wr 3 = 0
    ∧ (Lottery.startup.sio 0).dptr = 0 := by
  decide

theorem and_not8_7 (x : Nat) :
    (x &&& not8 (Lottery.INT_RX ||| Lottery.INT_TX ||| Lottery.INT_ERR)) &&& 7 = 0 := by
  have e : not8 (Lottery.INT_RX ||| Lottery.INT_TX ||| Lottery.INT_ERR) &&& 7 = 0 := by decide
  rw [Nat.and_assoc, e, Nat.and_zero]

theorem Lottery.sio2_channel_reset_chan (s : Lottery.State) (ch : Nat) :
    ((Lottery.sio2_channel_reset s ch).sio ch).rr 0 = 0x2C
    ∧ ((Lottery.sio2_channel_reset s ch).sio ch).rr 1 = 0x01
    ∧ ((Lottery.sio2_channel_reset s ch).sio ch).rr 2 = 0
    ∧ ((Lottery.sio2_channel_reset s ch).sio ch).intbits &&& 7 = 0
    ∧ ((Lottery.sio2_channel_reset s ch).sio ch).pending &&& 7 = 0
    ∧ ((Lottery.sio2_channel_reset s ch).sio ch).wr = (s.sio ch).wr
    ∧ ((Lottery.sio2_channel_reset s ch).sio ch).dptr = (s.sio ch).dptr
    ∧ ((Lottery.sio2_channel_reset s ch).sio ch).data = (s.sio ch).data := by
  have h7 := and_not8_7
  by_cases hc : ch = 0 <;>
    simp [Lottery.sio2_channel_reset, Lottery.sio2_clear_int, Lottery.setChan,
      Lottery.recalc_interrupts, hc, upd] <;>
    split_ifs <;> simp_all [upd] <;> omega

/-- C23, amended: with the register pointer of the channel at 0, a control
write whose bits 3-5 are 011 (channel reset) sets RR0 = `0x2C`, RR1 = `0x01`,
RR2 = 0 and clears the three interrupt bits in the channel's `intbits` and
`pending`, for every prior state; it leaves WR1-WR7, the receive queue and its
occupancy as they were, and WR0 holds the written byte. -/
theorem channel_reset_command (s : Lottery.State) (b : Bool) (val : Nat)
    (hp : (s.sio (Lottery.chan_index b)).wr 0 &&& 7 = 0)
    (hc : val &&& 0o70 = 0o30) :
    ((Lottery.sio2_write s (Lottery.ctrl_port b) val).sio (Lottery.chan_index b)).rr 0 = 0x2C
    ∧ ((Lottery.sio2_write s (Lottery.ctrl_port b) val).sio (Lottery.chan_index b)).rr 1 = 0x01
    ∧ ((Lottery.sio2_write s (Lottery.ctrl_port b) val).sio (Lottery.chan_index b)).rr 2 = 0
    ∧ ((Lottery.sio2_write s (Lottery.ctrl_port b) val).sio (Lottery.chan_index b)).intbits
        &&& 7 = 0
    ∧ ((Lottery.sio2_write s (Lottery.ctrl_port b) val).sio (Lottery.chan_index b)).pending
        &&& 7 = 0
    ∧ ((Lottery.sio2_write s (Lottery.ctrl_port b) val).sio (Lottery.chan_index b)).wr 0 = val
    ∧ (∀ j, j ≠ 0 →
        ((Lottery.sio2_write s (Lottery.ctrl_port b) val).sio (Lottery.chan_index b)).wr j
          = (s.sio (Lottery.chan_index b)).wr j)
    ∧ ((Lottery.sio2_write s (Lottery.ctrl_port b) val).sio (Lottery.chan_index b)).dptr
        = (s.sio (Lottery.chan_index b)).dptr
    ∧ ((Lottery.sio2_write s (Lottery.ctrl_port b) val).sio (Lottery.chan_index b)).data
        = (s.sio (Lottery.chan_index b)).data := by
  have e : Lottery.sio2_write s (Lottery.ctrl_port b) val
      = Lottery.sio2_channel_reset
          (Lottery.setChan s (Lottery.chan_index b)
            { s.sio (Lottery.chan_index b) with
              wr := upd (s.sio (Lottery.chan_index b)).wr 0 val })
          (Lottery.chan_index b) := by
    cases b <;>
      simp [Lottery.sio2_write, Lottery.sio2_command, Lottery.ctrl_port, Lottery.chan_index,
        hc, -Nat.and_one_is_mod] <;>
      simp [Lottery.chan_index] at hp <;> simp [hp]
  have h := Lottery.sio2_channel_reset_chan
    (Lottery.setChan s (Lottery.chan_index b)
      { s.sio (Lottery.chan_index b) with wr := upd (s.sio (Lottery.chan_index b)).wr 0 val })
    (Lottery.chan_index b)
  rw [e]
  refine ⟨h.1, h.2.1, h.2.2.1, h.2.2.2.1, h.2.2.2.2.1, ?_, ?_, ?_, ?_⟩
  · rw [h.2.2.2.2.2.1]
    simp [Lottery.setChan, upd]
  · intro j hj
    rw [h.2.2.2.2.2.1]
    simp [Lottery.setChan, upd, hj]
  · rw [h.2.2.2.2.2.2.1]
    simp [Lottery.setChan]
  · rw [h.2.2.2.2.2.2.2]
    simp [Lottery.setChan]

/-- C23, amended, at a concrete input: on the machine with WR3 = 1 and one
byte queued on channel A, the reset command `0x18` gives RR0 = `0x2C` and
leaves WR3 and the occupancy at 1. -/
theorem channel_reset_command_witness :
    ((Lottery.sio2_write Lottery.rx_one_queued 1 0x18).sio 0).rr 0 = 0x2C
    ∧ ((Lottery.sio2_write Lottery.rx_one_queued 1 0x18).sio 0).wr 3 = 1
    ∧ ((Lottery.sio2_write Lottery.rx_one_queued 1 0x18).sio 0).dptr = 1 :=
  have h := channel_reset_command Lottery.rx_one_queued false 0x18 (by decide) (by decide)
  ⟨h.1, (h.2.2.2.2.2.2.1 3 (by decide)).trans (by decide), h.2.2.2.2.2.2.2.1.trans (by decide)⟩

/-! ## Startup: the ROM size check -/

/-- C24, the claim as written fails: rbcv2 accepts a ROM file one byte longer
than 512 KiB, and lottery accepts a ROM file of 256 KiB, twice the 128 KiB its
message names. -/
theorem oversize_rom_accepted :
    (rom_of_len (512 * 1024 + 1)).len ≠ 512 * 1024
    ∧ (Rbcv2.main_startup (rom_of_len (512 * 1024 + 1)) Rbcv2.zero).isSome = true
    ∧ (rom_of_len (256 * 1024)).len ≠ 128 * 1024
    ∧ (Lottery.main_startup (rom_of_len (256 * 1024)) Lottery.zero).isSome = true := by
  decide

theorem Rbcv2.rom_load_loop_isSome (f : RomFile) (n i pos : Nat) (s : Rbcv2.State) :
    (Rbcv2.rom_load_loop f n i pos s).isSome = true ↔ (n = 0 ∨ pos + n * 32768 ≤ f.len) := by
  induction n generalizing i pos s with
  | zero => simp [Rbcv2.rom_load_loop]
  | succ n ih =>
    unfold Rbcv2.rom_load_loop
    simp only []
    by_cases hg : read_count f.len pos 32768 = 32768
    · rw [if_neg (not_not.mpr hg), ih, hg]
      unfold read_count at hg
      omega
    · rw [if_pos hg]
      unfold read_count at hg
      simp only [Option.isSome_none, Bool.false_eq_true, false_iff]
      omega

/-- C24, amended: with `read` returning the bytes available up to the count
requested, rbcv2's startup goes on to reset the CPU if and only if the ROM file
holds at least 512 KiB, and exits with failure before that point for every
shorter file; lottery's startup exits with failure before the CPU is reset for
every ROM file shorter than 128 KiB and goes on to reset the CPU for every
file of at least 256 KiB, the count its `read` requests.  A file longer than
the count requested is accepted. -/
theorem rom_size_check (f : RomFile) (s : Rbcv2.State) (l : Lottery.State) :
    ((Rbcv2.main_startup f s).isSome = true ↔ 512 * 1024 ≤ f.len)
    ∧ (f.len < 512 * 1024 → Rbcv2.main_startup f s = none)
    ∧ (f.len < 128 * 1024 → Lottery.main_startup f l = none)
    ∧ (256 * 1024 ≤ f.len → (Lottery.main_startup f l).isSome = true) := by
  have hr : (Rbcv2.main_startup f s).isSome = true ↔ 512 * 1024 ≤ f.len := by
    have h := Rbcv2.rom_load_loop_isSome f 16 0 0 s
    unfold Rbcv2.main_startup Rbcv2.main_rom_load
    cases hl : Rbcv2.rom_load_loop f 16 0 0 s with
    | none =>
      rw [hl] at h
      simp only [Option.isSome_none, Bool.false_eq_true, false_iff] at h ⊢
      omega
    | some s1 =>
      rw [hl] at h
      simp only [Option.isSome_some, true_iff] at h ⊢
      omega
  refine ⟨hr, fun h => ?_, fun h => ?_, fun h => ?_⟩
  · cases hm : Rbcv2.main_startup f s with
    | none => rfl
    | some s1 =>
      rw [hm] at hr
      have := hr.mp rfl
      omega
  · unfold Lottery.main_startup Lottery.main_rom_load read_count
    simp only []
    rw [if_pos (by omega)]
  · unfold Lottery.main_startup Lottery.main_rom_load read_count
    simp only []
    rw [if_neg (by omega)]
    rfl

/-- C24, amended, at concrete inputs: a ROM file of 1000 bytes makes both
platforms exit before the CPU is reset; a file of exactly 512 KiB is accepted
by rbcv2 and one of 300000 bytes by lottery. -/
theorem rom_size_check_witness :
    Rbcv2.main_startup (rom_of_len 1000) Rbcv2.zero = none
    ∧ Lottery.main_startup (rom_of_len 1000) Lottery.zero = none
    ∧ (Rbcv2.main_startup (rom_of_len (512 * 1024)) Rbcv2.zero).isSome = true
    ∧ (Lottery.main_startup (rom_of_len 300000) Lottery.zero).isSome = true :=
  ⟨(rom_size_check (rom_of_len 1000) Rbcv2.zero Lottery.zero).2.1 (by decide),
   (rom_size_check (rom_of_len 1000) Rbcv2.zero Lottery.zero).2.2.1 (by decide),
   (rom_size_check (rom_of_len (512 * 1024)) Rbcv2.zero Lottery.zero).1.mpr (by decide),
   (rom_size_check (rom_of_len 300000) Rbcv2.zero Lottery.zero).2.2.2 (by decide)⟩

/-! ## The port maps in the file headers -/

/-- For every port whose low 8 bits are 0 to 3, lottery's `io_read` returns
`0xFF` and leaves the state unchanged and `io_write` leaves the state
unchanged: the dispatcher does not route these ports to the SIO. -/
theorem Lottery.io_low_ports (s : Lottery.State) (addr v : Nat) (h : addr &&& 0xFF ≤ 3) :
    Lottery.io_read s addr = (0xFF, s) ∧ Lottery.io_write s addr v = s := by
  unfold Lottery.io_read Lottery.io_write
  simp only []
  generalize addr &&& 0xFF = a at h
  refine ⟨?_, ?_⟩ <;> split_ifs <;> first | rfl | (exfalso; omega)

/-- C25: the dispatcher routes ports `0x60-0x63` to the SIO, not ports
`0x00-0x03` as the file header says.  With `0x41` queued on channel A, a read
of port 0 returns `0xFF` and a read of port `0x60` returns `0x41`; a read of
port 1 returns `0xFF` and a read of port `0x61` returns RR0; a write of `0x41`
to port 0 sends nothing to the terminal and a write to port `0x60` sends
`0x41`; a write to port 3 stores nothing in channel B's WR0 and a write to
port `0x63` does. -/
theorem sio_ports_not_at_zero :
    (Lottery.io_read Lottery.rx_one_queued 0x00).1 = 0xFF
    ∧ (Lottery.io_read Lottery.rx_one_queued 0x60).1 = 0x41
    ∧ (Lottery.io_read Lottery.rx_one_queued 0x01).1 = 0xFF
    ∧ (Lottery.io_read Lottery.rx_one_queued 0x61).1 = 0x2D
    ∧ (Lottery.io_read Lottery.rx_one_queued 0x02).1 = 0xFF
    ∧ (Lottery.io_read Lottery.rx_one_queued 0x03).1 = 0xFF
    ∧ (Lottery.io_write Lottery.startup 0x00 0x41).tty = []
    ∧ (Lottery.io_write Lottery.startup 0x60 0x41).tty = [0x41]
    ∧ ((Lottery.io_write Lottery.startup 0x03 0x05).sio 1).wr 0 = 0
    ∧ ((Lottery.io_write Lottery.startup 0x63 0x05).sio 1).wr 0 = 0x05 := by
  decide

/-- For every value, a write to a port whose low 8 bits are `0x7A` or `0x7B`
leaves the whole rbcv2 state, `rambank` included, unchanged. -/
theorem Rbcv2.io_write_7A_7B (env : Rbcv2.Env) (s : Rbcv2.State) (addr v : Nat)
    (h : addr &&& 0xFF = 0x7A ∨ addr &&& 0xFF = 0x7B) :
    Rbcv2.io_write env s addr v = s := by
  rcases h with h | h <;> simp [Rbcv2.io_write, h]

/-- C26: the RAM bank register answers at ports `0x78` and `0x79` only, not
at `0x7A` and `0x7B` as the file header says.  With RAM bank 3 selected, writing
5 to port `0x78` or `0x79` sets `rambank` to 5, while writing 5 to port `0x7A`
or `0x7B` leaves it at 3.  The ROM bank register answers at all four ports
`0x7C-0x7F`. -/
theorem ram_bank_ports_7A_7B_ignored :
    Rbcv2.bank3.rambank = 3
    ∧ (Rbcv2.io_write Rbcv2.env_zero Rbcv2.bank3 0x78 5).rambank = 5
    ∧ (Rbcv2.io_write Rbcv2.env_zero Rbcv2.bank3 0x79 5).rambank = 5
    ∧ (Rbcv2.io_write Rbcv2.env_zero Rbcv2.bank3 0x7A 5).rambank = 3
    ∧ (Rbcv2.io_write Rbcv2.env_zero Rbcv2.bank3 0x7B 5).rambank = 3
    ∧ (Rbcv2.io_write Rbcv2.env_zero Rbcv2.bank3 0x7C 0x85).rombank = 0x85
    ∧ (Rbcv2.io_write Rbcv2.env_zero Rbcv2.bank3 0x7D 0x85).rombank = 0x85
    ∧ (Rbcv2.io_write Rbcv2.env_zero Rbcv2.bank3 0x7E 0x85).rombank = 0x85
    ∧ (Rbcv2.io_write Rbcv2.env_zero Rbcv2.bank3 0x7F 0x85).rombank = 0x85
    ∧ Rbcv2.mem_read_cell (Rbcv2.io_write Rbcv2.env_zero Rbcv2.bank3 0x7C 0x85) 0x1234
        = (32 + 3, 0x1234) := by
  decide

/-! ## rbcv2: the RAM-floppy address registers -/

/-- The element of `ramf_port` named by `ramf_read_index` is the one
`ramf_read` returns at the register offsets: for `addr & 3` equal to 1 or 2 the
byte returned is `ramf_port[high][addr & 3]`. -/
theorem Rbcv2.ramf_read_reg (s : Rbcv2.State) (addr : Nat)
    (h : addr &&& 3 = 1 ∨ addr &&& 3 = 2) :
    Rbcv2.ramf_read_index addr = [(if addr &&& 4 ≠ 0 then 1 else 0, addr &&& 3)]
    ∧ Rbcv2.ramf_read s addr
        = (s.ramf_port (if addr &&& 4 ≠ 0 then 1 else 0) (addr &&& 3), s) := by
  unfold Rbcv2.ramf_read_index Rbcv2.ramf_read
  simp only []
  rcases h with h | h <;> simp [h]

/-- Every element of `ramf_port` that `ramf_write` accesses lies inside the
`[2][2]` array. -/
theorem Rbcv2.ramf_write_in_bounds (addr : Nat) :
    ∀ p ∈ Rbcv2.ramf_write_index addr, p.1 < 2 ∧ p.2 < 2 := by
  have h1 : (addr &&& 3) &&& 1 < 2 := Nat.lt_succ_of_le Nat.and_le_right
  unfold Rbcv2.ramf_write_index
  simp only []
  split_ifs <;> simp <;> omega

/-- C30: `ramf_read` at offsets 2 and 6 reads `ramf_port[high][2]`, a column
outside the `[2][2]` array, while `ramf_write` at the same offsets stores into
`ramf_port[high][0]`.  With the device enabled, a value `0x55` written at
offset 2 (port `0xA2`) is not returned by a read of offset 2, and the same
holds for offset 6; at offsets 1 and 5 the value written is read back. -/
theorem ramf_read_offset_2_out_of_bounds :
    Rbcv2.ramf_read_index 2 = [(0, 2)]
    ∧ Rbcv2.ramf_write_index 2 = [(0, 0)]
    ∧ Rbcv2.ramf_read_index 6 = [(1, 2)]
    ∧ Rbcv2.ramf_write_index 6 = [(1, 0)]
    ∧ (Rbcv2.ramf_read (Rbcv2.ramf_write Rbcv2.ramf_on 2 0x55) 2).1 = 0
    ∧ (Rbcv2.ramf_read (Rbcv2.ramf_write Rbcv2.ramf_on 6 0x55) 6).1 = 0
    ∧ (Rbcv2.io_read (Rbcv2.io_write Rbcv2.env_zero Rbcv2.ramf_on 0xA2 0x55) 0xA2 2 none 0).1 = 0
    ∧ (Rbcv2.ramf_write Rbcv2.ramf_on 2 0x55).ramf_port 0 0 = 0x55
    ∧ (Rbcv2.ramf_read (Rbcv2.ramf_write Rbcv2.ramf_on 1 0x55) 1).1 = 0x55
    ∧ (Rbcv2.ramf_read (Rbcv2.ramf_write Rbcv2.ramf_on 5 0x55) 5).1 = 0x55 := by
  decide

/-! ## rbcv2: RAM bank 31 and the common bank -/

/-- C27: for every lower-window address `a` and value `v`: when bit 7 of
`rombank` is set and `rambank & 0x1F` is 31, `mem_write(a, v)` followed by
`mem_read(a + 0x8000)` returns `v` and `mem_write(a + 0x8000, v)` followed by
`mem_read(a)` returns `v`; when `rambank & 0x1F` is not 31, whatever `rombank`
holds, `mem_write(a, v)` changes no byte that `mem_read` returns for an
upper-window address. -/
theorem ram_bank_31_aliases_common (s : Rbcv2.State) (a v : Nat) (ha : a < 0x8000) :
    (s.rombank &&& 0x80 ≠ 0 → s.rambank &&& 0x1F = 31 →
      Rbcv2.mem_read (Rbcv2.mem_write s a v) (a + 0x8000) = v
      ∧ Rbcv2.mem_read (Rbcv2.mem_write s (a + 0x8000) v) a = v)
    ∧ (s.rambank &&& 0x1F ≠ 31 →
      ∀ b, 0x8000 ≤ b → Rbcv2.mem_read (Rbcv2.mem_write s a v) b = Rbcv2.mem_read s b) := by
  have hlo : ¬ a > 32767 := by omega
  have hhi : a + 0x8000 > 32767 := by omega
  have hm : (a + 0x8000) &&& 0x7FFF = a := by
    rw [and_7FFF_of_upper (a + 0x8000) (by omega) (by omega)]
    omega
  refine ⟨fun h7 h31 => ⟨?_, ?_⟩, fun hne b hb => ?_⟩
  · simp [Rbcv2.mem_read, Rbcv2.mem_read_cell, Rbcv2.mem_write, Rbcv2.mem_write_cell,
      hlo, hhi, hm, h7, h31, Rbcv2.HIRAM, upd2]
  · simp [Rbcv2.mem_read, Rbcv2.mem_read_cell, Rbcv2.mem_write, Rbcv2.mem_write_cell,
      hlo, hhi, hm, h7, h31, Rbcv2.HIRAM, upd2]
  · have hb' : b > 32767 := by omega
    have hle : s.rambank &&& 0x1F ≤ 31 := and_1F_le _
    have hbank : ¬ (63 = 32 + (s.rambank &&& 0x1F)) := by omega
    by_cases h7 : s.rombank &&& 0x80 ≠ 0
    · simp [Rbcv2.mem_read, Rbcv2.mem_read_cell, Rbcv2.mem_write, Rbcv2.mem_write_cell,
        hlo, hb', h7, Rbcv2.HIRAM, upd2, hbank]
    · simp [Rbcv2.mem_read, Rbcv2.mem_read_cell, Rbcv2.mem_write, Rbcv2.mem_write_cell,
        hlo, hb', h7, Rbcv2.HIRAM]

/-- C27 at a concrete input: with `rombank = 0x80` and `rambank = 0x1F`, a
byte written at `0x1234` is read back at `0x9234` and a byte written at
`0x9234` is read back at `0x1234`; with `rambank = 3` a write at `0x1234` leaves
what is read at `0x9234` unchanged. -/
theorem ram_bank_31_aliases_common_witness :
    (Rbcv2.mem_read (Rbcv2.mem_write { Rbcv2.zero with rombank := 0x80, rambank := 0x1F }
        0x1234 0xAB) (0x1234 + 0x8000) = 0xAB
      ∧ Rbcv2.mem_read (Rbcv2.mem_write { Rbcv2.zero with rombank := 0x80, rambank := 0x1F }
        (0x1234 + 0x8000) 0xAB) 0x1234 = 0xAB)
    ∧ Rbcv2.mem_read (Rbcv2.mem_write { Rbcv2.zero with rombank := 0x80, rambank := 3 }
        0x1234 0xAB) 0x9234
      = Rbcv2.mem_read { Rbcv2.zero with rombank := 0x80, rambank := 3 } 0x9234 :=
  ⟨(ram_bank_31_aliases_common { Rbcv2.zero with rombank := 0x80, rambank := 0x1F }
      0x1234 0xAB (by decide)).1 (by decide) (by decide),
   (ram_bank_31_aliases_common { Rbcv2.zero with rombank := 0x80, rambank := 3 }
      0x1234 0xAB (by decide)).2 (by decide) 0x9234 (by decide)⟩

/-! ## lottery: the SIO register pointer -/

theorem low3_facts (r : Nat) (h1 : 1 ≤ r) (h7 : r ≤ 7) :
    r &&& 7 = r ∧ r &&& 0o70 = 0 ∧ r &&& 0xF8 = 0 ∧ r &&& 7 ≠ 0 := by
  interval_cases r <;> decide

theorem Lottery.sio2_write_select (s : Lottery.State) (b : Bool) (r : Nat)
    (hp : (s.sio (Lottery.chan_index b)).wr 0 &&& 7 = 0) (hc : r &&& 0o70 = 0) :
    Lottery.sio2_write s (Lottery.ctrl_port b) r
      = Lottery.setChan s (Lottery.chan_index b)
          { s.sio (Lottery.chan_index b) with
            wr := upd (s.sio (Lottery.chan_index b)).wr 0 r } := by
  cases b <;>
    simp [Lottery.sio2_write, Lottery.sio2_command, Lottery.ctrl_port, Lottery.chan_index,
      hc, -Nat.and_one_is_mod] <;>
    simp [Lottery.chan_index] at hp <;> simp [hp]

theorem Lottery.sio2_write_store (s : Lottery.State) (b : Bool) (v : Nat)
    (hp : (s.sio (Lottery.chan_index b)).wr 0 &&& 7 ≠ 0) :
    Lottery.sio2_write s (Lottery.ctrl_port b) v
      = Lottery.setChan s (Lottery.chan_index b)
          { s.sio (Lottery.chan_index b) with
            wr := upd (upd (s.sio (Lottery.chan_index b)).wr
                    ((s.sio (Lottery.chan_index b)).wr 0 &&& 7) v) 0
                  (upd (s.sio (Lottery.chan_index b)).wr
                    ((s.sio (Lottery.chan_index b)).wr 0 &&& 7) v 0 &&& 0xF8),
            rr := if Lottery.chan_index b ≠ 0 ∧ (s.sio (Lottery.chan_index b)).wr 0 &&& 7 = 2
                  then upd (s.sio (Lottery.chan_index b)).rr 2 v
                  else (s.sio (Lottery.chan_index b)).rr } := by
  cases b <;>
    simp [Lottery.sio2_write, Lottery.ctrl_port, Lottery.chan_index, -Nat.and_one_is_mod] <;>
    simp [Lottery.chan_index] at hp <;> simp [hp]

theorem Lottery.select_then_store (s : Lottery.State) (b : Bool) (r v : Nat)
    (hp : (s.sio (Lottery.chan_index b)).wr 0 &&& 7 = 0) (h1 : 1 ≤ r) (h7 : r ≤ 7) :
    (Lottery.sio2_write (Lottery.sio2_write s (Lottery.ctrl_port b) r) (Lottery.ctrl_port b) v).sio
        (Lottery.chan_index b)
      = { s.sio (Lottery.chan_index b) with
          wr := upd (upd (upd (s.sio (Lottery.chan_index b)).wr 0 r) r v) 0 0,
          rr := if Lottery.chan_index b ≠ 0 ∧ r = 2
                then upd (s.sio (Lottery.chan_index b)).rr 2 v
                else (s.sio (Lottery.chan_index b)).rr } := by
  obtain ⟨e7, e70, eF8, ene⟩ := low3_facts r h1 h7
  have hr0 : r ≠ 0 := by omega
  rw [Lottery.sio2_write_select s b r hp e70]
  have hw0 : ((Lottery.setChan s (Lottery.chan_index b)
      { s.sio (Lottery.chan_index b) with
        wr := upd (s.sio (Lottery.chan_index b)).wr 0 r }).sio (Lottery.chan_index b)).wr 0
      = r := by
    simp [Lottery.setChan, upd]
  rw [Lottery.sio2_write_store _ b v (by rw [hw0]; exact ene)]
  simp [Lottery.setChan, upd, e7, eF8, hr0, Ne.symm hr0]

/-- C28: for each channel, each `r` from 1 to 7 and each `v`, starting with
the register pointer at 0, a control write of `r` followed by a control write
of `v` stores `v` in WR[r], leaves every other register from WR1 to WR7
unchanged and leaves WR0 at 0, so the pointer is 0 again and a further write
of `r2` selects once more; on channel B with `r = 2` the value is also stored
in RR2, and selecting register 2 and reading the control port returns `v`. -/
theorem register_select_then_write (s : Lottery.State) (b : Bool) (r v : Nat)
    (hp : (s.sio (Lottery.chan_index b)).wr 0 &&& 7 = 0) (h1 : 1 ≤ r) (h7 : r ≤ 7) :
    ((Lottery.sio2_write (Lottery.sio2_write s (Lottery.ctrl_port b) r)
        (Lottery.ctrl_port b) v).sio (Lottery.chan_index b)).wr r = v
    ∧ (∀ j, 1 ≤ j → j ≤ 7 → j ≠ r →
        ((Lottery.sio2_write (Lottery.sio2_write s (Lottery.ctrl_port b) r)
          (Lottery.ctrl_port b) v).sio (Lottery.chan_index b)).wr j
        = (s.sio (Lottery.chan_index b)).wr j)
    ∧ ((Lottery.sio2_write (Lottery.sio2_write s (Lottery.ctrl_port b) r)
        (Lottery.ctrl_port b) v).sio (Lottery.chan_index b)).wr 0 &&& 7 = 0
    ∧ (b = true → r = 2 →
        ((Lottery.sio2_write (Lottery.sio2_write s 3 2) 3 v).sio 1).rr 2 = v
        ∧ (Lottery.sio2_read
            (Lottery.sio2_write (Lottery.sio2_write (Lottery.sio2_write s 3 2) 3 v) 3 2) 3).1
          = v) := by
  have hr0 : r ≠ 0 := by omega
  have e := Lottery.select_then_store s b r v hp h1 h7
  refine ⟨?_, ?_, ?_, ?_⟩
  · rw [e]
    simp [upd, hr0]
  · intro j hj1 _ hjr
    have hj0 : j ≠ 0 := by omega
    rw [e]
    simp [upd, hj0, hjr]
  · rw [e]
    simp [upd]
  · intro hb hr
    subst hb
    subst hr
    have e2 : (Lottery.sio2_write (Lottery.sio2_write s 3 2) 3 v).sio 1
        = { s.sio 1 with
            wr := upd (upd (upd (s.sio 1).wr 0 2) 2 v) 0 0,
            rr := upd (s.sio 1).rr 2 v } := by
      have := e
      simpa [Lottery.chan_index, Lottery.ctrl_port] using this
    refine ⟨?_, ?_⟩
    · rw [e2]
      simp [upd]
    · have hp2 : ((Lottery.sio2_write (Lottery.sio2_write s 3 2) 3 v).sio
          (Lottery.chan_index true)).wr 0 &&& 7 = 0 := by
        show ((Lottery.sio2_write (Lottery.sio2_write s 3 2) 3 v).sio 1).wr 0 &&& 7 = 0
        rw [e2]
        simp [upd]
      have e3 := Lottery.sio2_write_select
        (Lottery.sio2_write (Lottery.sio2_write s 3 2) 3 v) true 2 hp2 (by decide)
      have e3' : Lottery.sio2_write (Lottery.sio2_write (Lottery.sio2_write s 3 2) 3 v) 3 2
          = Lottery.setChan (Lottery.sio2_write (Lottery.sio2_write s 3 2) 3 v) 1
              { (Lottery.sio2_write (Lottery.sio2_write s 3 2) 3 v).sio 1 with
                wr := upd ((Lottery.sio2_write (Lottery.sio2_write s 3 2) 3 v).sio 1).wr 0 2 } :=
        e3
      have c1 : (2 : Nat) &&& 7 = 2 := rfl
      rw [e3', e2]
      simp [Lottery.sio2_read, Lottery.setChan, upd, c1, -Nat.and_one_is_mod]

/-- C28 at a concrete input: on channel B after startup, selecting register 2
and writing `0xE0` stores `0xE0` in WR2, and selecting register 2 again and
reading the control port returns `0xE0`. -/
theorem register_select_then_write_witness :
    ((Lottery.sio2_write (Lottery.sio2_write Lottery.startup 3 2) 3 0xE0).sio 1).wr 2 = 0xE0
    ∧ (Lottery.sio2_read (Lottery.sio2_write
        (Lottery.sio2_write (Lottery.sio2_write Lottery.startup 3 2) 3 0xE0) 3 2) 3).1 = 0xE0 :=
  have h := register_select_then_write Lottery.startup true 2 0xE0
    (by decide) (by decide) (by decide)
  ⟨h.1, (h.2.2.2 rfl rfl).2⟩

/-! ## rbcv2: the UART interrupt line -/

theorem pending_mask_facts (x : Nat) (h : x &&& 0x0B = x) :
    (x ≠ 0 ↔ (x &&& Rbcv2.RXDA ≠ 0 ∨ x &&& Rbcv2.TEMT ≠ 0 ∨ x &&& Rbcv2.MODEM ≠ 0))
    ∧ (∀ n, n = Rbcv2.RXDA ∨ n = Rbcv2.TEMT ∨ n = Rbcv2.MODEM →
        (x ||| n) &&& 0x0B = x ||| n)
    ∧ (∀ m, (x &&& m) &&& 0x0B = x &&& m) := by
  have hx : x ≤ 11 := by
    rw [← h]
    exact Nat.and_le_right
  refine ⟨?_, ?_, ?_⟩
  · interval_cases x <;> first | decide | exact absurd h (by decide)
  · rintro n (rfl | rfl | rfl) <;> interval_cases x <;>
      first | decide | exact absurd h (by decide)
  · intro m
    rw [Nat.and_assoc, Nat.and_comm m, ← Nat.and_assoc, h]

theorem Rbcv2.recalc_line_ok (s : Rbcv2.State) (u : Nat)
    (h : (s.uart u).irq &&& 0x0B = (s.uart u).irq) :
    Rbcv2.line_ok ((Rbcv2.uart_recalc_iir s u).uart u)
    ∧ ∀ j, j ≠ u → (Rbcv2.uart_recalc_iir s u).uart j = s.uart j := by
  have hf := (pending_mask_facts _ h).1
  rw [Rbcv2.uart_recalc_iir_uart]
  refine ⟨?_, fun j hj => by simp [hj]⟩
  simp only [Rbcv2.line_ok, if_true]
  refine ⟨?_, h⟩
  by_cases hz : (s.uart u).irq = 0
  · have hn : ¬ ((s.uart u).irq &&& Rbcv2.RXDA ≠ 0 ∨ (s.uart u).irq &&& Rbcv2.TEMT ≠ 0
        ∨ (s.uart u).irq &&& Rbcv2.MODEM ≠ 0) := fun c => (hf.mpr c) hz
    rw [if_neg hn]
    simp [hz]
  · rw [if_pos (hf.mp hz)]
    by_cases hl : (s.uart u).irqline ≠ 0
    · rw [if_pos hl]
      exact ⟨fun _ => hz, fun _ => hl⟩
    · rw [if_neg hl]

theorem Rbcv2.setUart_line_ok (s : Rbcv2.State) (u : Nat) (q : Rbcv2.uart16x50)
    (h : ∀ j, Rbcv2.line_ok (s.uart j))
    (hq : q.irq = (s.uart u).irq) (hl : q.irqline = (s.uart u).irqline) :
    ∀ j, Rbcv2.line_ok ((Rbcv2.setUart s u q).uart j) := by
  intro j
  by_cases hj : j = u
  · have hu := h u
    simp only [Rbcv2.setUart, hj, if_true, Rbcv2.line_ok, hq, hl]
    exact hu
  · simp only [Rbcv2.setUart, hj, if_false]
    exact h j

theorem Rbcv2.uart_interrupt_line_ok (s : Rbcv2.State) (u n : Nat)
    (hn : n = Rbcv2.RXDA ∨ n = Rbcv2.TEMT ∨ n = Rbcv2.MODEM)
    (h : ∀ j, Rbcv2.line_ok (s.uart j)) :
    ∀ j, Rbcv2.line_ok ((Rbcv2.uart_interrupt s u n).uart j) := by
  unfold Rbcv2.uart_interrupt
  simp only []
  split_ifs
  · exact h
  · exact h
  · intro j
    have hm : ((Rbcv2.setUart s u { s.uart u with irq := (s.uart u).irq ||| n }).uart u).irq
        &&& 0x0B
        = ((Rbcv2.setUart s u { s.uart u with irq := (s.uart u).irq ||| n }).uart u).irq := by
      simp only [Rbcv2.setUart, if_true]
      exact (pending_mask_facts _ (h u).2).2.1 n hn
    have hr := Rbcv2.recalc_line_ok _ u hm
    by_cases hj : j = u
    · rw [hj]
      exact hr.1
    · rw [hr.2 j hj]
      simp only [Rbcv2.setUart, hj, if_false]
      exact h j

theorem Rbcv2.uart_clear_interrupt_line_ok (s : Rbcv2.State) (u n : Nat)
    (h : ∀ j, Rbcv2.line_ok (s.uart j)) :
    ∀ j, Rbcv2.line_ok ((Rbcv2.uart_clear_interrupt s u n).uart j) := by
  unfold Rbcv2.uart_clear_interrupt
  simp only []
  split_ifs
  · exact h
  · intro j
    have hm : ((Rbcv2.setUart s u { s.uart u with irq := (s.uart u).irq &&& not8 n }).uart u).irq
        &&& 0x0B
        = ((Rbcv2.setUart s u { s.uart u with irq := (s.uart u).irq &&& not8 n }).uart u).irq := by
      simp only [Rbcv2.setUart, if_true]
      exact (pending_mask_facts _ (h u).2).2.2 (not8 n)
    have hr := Rbcv2.recalc_line_ok _ u hm
    by_cases hj : j = u
    · rw [hj]
      exact hr.1
    · rw [hr.2 j hj]
      simp only [Rbcv2.setUart, hj, if_false]
      exact h j

theorem Rbcv2.uart_write_line_ok (s : Rbcv2.State) (u addr val : Nat)
    (h : ∀ j, Rbcv2.line_ok (s.uart j)) :
    ∀ j, Rbcv2.line_ok ((Rbcv2.uart_write s u addr val).uart j) := by
  unfold Rbcv2.uart_write
  simp only []
  split_ifs <;>
    first
    | exact h
    | exact Rbcv2.setUart_line_ok s u _ h rfl rfl
    | exact Rbcv2.uart_interrupt_line_ok _ u Rbcv2.TEMT (Or.inr (Or.inl rfl))
        (Rbcv2.uart_clear_interrupt_line_ok _ u Rbcv2.TEMT h)

theorem Rbcv2.line_ok_ite (c : Prop) [Decidable c] (a b : Rbcv2.State)
    (ha : ∀ j, Rbcv2.line_ok (a.uart j)) (hb : ∀ j, Rbcv2.line_ok (b.uart j)) :
    ∀ j, Rbcv2.line_ok ((if c then a else b).uart j) := by
  split_ifs
  · exact ha
  · exact hb

theorem Rbcv2.line_ok_ite_snd (c : Prop) [Decidable c] (a b : Nat × Rbcv2.State)
    (ha : ∀ j, Rbcv2.line_ok (a.2.uart j)) (hb : ∀ j, Rbcv2.line_ok (b.2.uart j)) :
    ∀ j, Rbcv2.line_ok ((if c then a else b).2.uart j) := by
  split_ifs
  · exact ha
  · exact hb

theorem Rbcv2.uart_read_line_ok (s : Rbcv2.State) (u addr r : Nat) (k : Option Nat)
    (h : ∀ j, Rbcv2.line_ok (s.uart j)) :
    ∀ j, Rbcv2.line_ok ((Rbcv2.uart_read s u addr r k).2.uart j) := by
  unfold Rbcv2.uart_read
  simp only []
  refine Rbcv2.line_ok_ite_snd _ _ _
    (Rbcv2.line_ok_ite_snd _ _ _ (Rbcv2.uart_clear_interrupt_line_ok s u _ h) h) ?_
  refine Rbcv2.line_ok_ite_snd _ _ _ h ?_
  refine Rbcv2.line_ok_ite_snd _ _ _ h ?_
  refine Rbcv2.line_ok_ite_snd _ _ _ h ?_
  refine Rbcv2.line_ok_ite_snd _ _ _ h ?_
  refine Rbcv2.line_ok_ite_snd _ _ _
    (Rbcv2.line_ok_ite_snd _ _ _ (Rbcv2.setUart_line_ok s u _ h rfl rfl) h) ?_
  refine Rbcv2.line_ok_ite_snd _ _ _
    (Rbcv2.uart_clear_interrupt_line_ok _ u _ (Rbcv2.setUart_line_ok s u _ h rfl rfl)) ?_
  exact Rbcv2.line_ok_ite_snd _ _ _ h h

theorem Rbcv2.uart_event_line_ok (s : Rbcv2.State) (u r : Nat)
    (h : ∀ j, Rbcv2.line_ok (s.uart j)) :
    ∀ j, Rbcv2.line_ok ((Rbcv2.uart_event s u r).uart j) := by
  have h1 : ∀ l, ∀ j, Rbcv2.line_ok
      ((Rbcv2.setUart s u { s.uart u with lsr := l }).uart j) :=
    fun l => Rbcv2.setUart_line_ok s u _ h rfl rfl
  unfold Rbcv2.uart_event
  simp only []
  exact Rbcv2.line_ok_ite _ _ _
    (Rbcv2.uart_interrupt_line_ok _ u Rbcv2.TEMT (Or.inr (Or.inl rfl))
      (Rbcv2.line_ok_ite _ _ _
        (Rbcv2.uart_interrupt_line_ok _ u Rbcv2.RXDA (Or.inl rfl) (h1 _)) (h1 _)))
    (Rbcv2.line_ok_ite _ _ _
      (Rbcv2.uart_interrupt_line_ok _ u Rbcv2.RXDA (Or.inl rfl) (h1 _)) (h1 _))

theorem Rbcv2.timer_pulse_line_ok (s : Rbcv2.State)
    (h : ∀ j, Rbcv2.line_ok (s.uart j)) :
    ∀ j, Rbcv2.line_ok ((Rbcv2.timer_pulse s).uart j) := by
  unfold Rbcv2.timer_pulse
  simp only []
  split_ifs
  · exact Rbcv2.uart_interrupt_line_ok _ 0 Rbcv2.MODEM (Or.inr (Or.inr rfl))
      (Rbcv2.setUart_line_ok s 0 _ h rfl rfl)
  · exact h

theorem Rbcv2.uart_run_line_ok (ops : List Rbcv2.UartOp) (s : Rbcv2.State)
    (h : ∀ j, Rbcv2.line_ok (s.uart j)) :
    ∀ j, Rbcv2.line_ok ((Rbcv2.uart_run s ops).uart j) := by
  induction ops generalizing s with
  | nil => exact h
  | cons op rest ih =>
    apply ih (Rbcv2.uart_step s op)
    cases op with
    | read u addr r k => exact Rbcv2.uart_read_line_ok s u addr r k h
    | write u addr val => exact Rbcv2.uart_write_line_ok s u addr val h
    | event u r => exact Rbcv2.uart_event_line_ok s u r h
    | pulse => exact Rbcv2.timer_pulse_line_ok s h

theorem Rbcv2.startup_timer_quiet (i : Nat) :
    (Rbcv2.startup_timer.uart i).irq = 0 ∧ (Rbcv2.startup_timer.uart i).irqline = 0 := by
  simp only [Rbcv2.startup_timer, Rbcv2.startup, Rbcv2.uart_init, Rbcv2.setUart, Rbcv2.zero,
    Rbcv2.uart_zero]
  split_ifs <;> exact ⟨rfl, rfl⟩

/-- C29: from any state in which every UART has an empty pending mask and a
low interrupt line, as at startup, after any sequence of `uart_read`,
`uart_write`, `uart_event` and `timer_pulse` every UART has `irqline` non-zero
if and only if `irq` is non-zero, and `irq` holds no bit other than RXDA (1),
TEMT (2) and MODEM (8). -/
theorem irqline_tracks_pending (s0 : Rbcv2.State) (ops : List Rbcv2.UartOp) (j : Nat)
    (h0 : ∀ i, (s0.uart i).irq = 0 ∧ (s0.uart i).irqline = 0) :
    (((Rbcv2.uart_run s0 ops).uart j).irqline ≠ 0 ↔ ((Rbcv2.uart_run s0 ops).uart j).irq ≠ 0)
    ∧ ((Rbcv2.uart_run s0 ops).uart j).irq &&& (Rbcv2.RXDA ||| Rbcv2.TEMT ||| Rbcv2.MODEM)
        = ((Rbcv2.uart_run s0 ops).uart j).irq := by
  have hs : ∀ i, Rbcv2.line_ok (s0.uart i) := by
    intro i
    unfold Rbcv2.line_ok
    rw [(h0 i).1, (h0 i).2]
    exact ⟨Iff.rfl, rfl⟩
  exact Rbcv2.uart_run_line_ok ops s0 hs j

/-- C29 at a concrete input: started with the timer option, after firmware
enables the three sources, a timer pulse, a tick with input ready and a read
of the modem status, `uart[0]` has RXDA pending (`irq = 1`) and its line still
raised (`irqline = 8`, the mask latched when the line went up). -/
theorem irqline_tracks_pending_witness :
    ((Rbcv2.uart_run Rbcv2.startup_timer Rbcv2.irq_ops).uart 0).irq = 1
    ∧ ((Rbcv2.uart_run Rbcv2.startup_timer Rbcv2.irq_ops).uart 0).irqline = 8
    ∧ (((Rbcv2.uart_run Rbcv2.startup_timer Rbcv2.irq_ops).uart 0).irqline ≠ 0
        ↔ ((Rbcv2.uart_run Rbcv2.startup_timer Rbcv2.irq_ops).uart 0).irq ≠ 0) :=
  ⟨by decide, by decide,
   (irqline_tracks_pending Rbcv2.startup_timer Rbcv2.irq_ops 0 Rbcv2.startup_timer_quiet).1⟩
